import Mathlib

/-!
Verification of the folio pre-build pipeline (`lib/folio-prebuild.py`,
`lib/temp_prebuild.py`) against its natural-language specification.

The Python sources are shallowly embedded: pure helper functions become Lean
functions over `String`/`List Char`, loosely-typed JSON documents become an
explicit inductive `JVal`, and the stateful publish transaction becomes an
explicit step function over a small filesystem-state record.  Python string
semantics are modelled at the ASCII level (the data the pipeline handles is
ASCII JSON); `str.strip`, `str.lower`, `re.sub` patterns and
`urllib.parse.unquote` are reproduced character by character.
-/

/-- Python `\s` / `str.strip()` whitespace characters (ASCII fragment). -/
def isPySpace (c : Char) : Bool :=
  c = ' ' || c = '\t' || c = '\n' || c = '\x0d' || c = '\x0b' || c = '\x0c'

/-- Python `str.strip()` with no argument: drop leading and trailing whitespace. -/
def pyStrip (s : String) : String :=
  ⟨(s.toList.dropWhile isPySpace).reverse.dropWhile isPySpace |>.reverse⟩

/-- Python `str.lower()` (ASCII). -/
def pyLower (s : String) : String :=
  ⟨s.toList.map Char.toLower⟩

/-- Whether `needle` occurs as a contiguous sublist of the second argument. -/
def subListOf (needle : List Char) : List Char → Bool
  | [] => needle.isEmpty
  | c :: rest => needle.isPrefixOf (c :: rest) || subListOf needle rest

/-- Python `needle in hay` substring containment on strings. -/
def strContains (hay needle : String) : Bool :=
  subListOf needle.toList hay.toList

/-- Python `str.startswith(p)`. -/
def strStartsWith (s p : String) : Bool :=
  p.toList.isPrefixOf s.toList

/-- Python `s[n:]`. -/
def strDrop (s : String) (n : Nat) : String :=
  ⟨s.toList.drop n⟩

/-- Python `str.isdigit()` restricted to ASCII digits: nonempty and all digits. -/
def pyIsDigit (s : String) : Bool :=
  !s.toList.isEmpty && s.toList.all Char.isDigit

/-- Hex digit test for `urllib.parse.unquote`. -/
def isHexDigit (c : Char) : Bool :=
  c.isDigit || ('a' ≤ c && c ≤ 'f') || ('A' ≤ c && c ≤ 'F')

/-- Numeric value of a hex digit. -/
def hexVal (c : Char) : Nat :=
  if c.isDigit then c.toNat - '0'.toNat
  else if 'a' ≤ c && c ≤ 'f' then c.toNat - 'a'.toNat + 10
  else c.toNat - 'A'.toNat + 10

/-- `urllib.parse.unquote`, modelled at the character level: each valid `%XX`
pair is decoded to the character with that code; invalid escapes are kept
verbatim.  (Python additionally reassembles UTF-8 byte sequences; the pipeline
data is ASCII, where the two agree.) -/
def unquoteAux : Nat → List Char → List Char
  | 0, _ => []
  | _, [] => []
  | Nat.succ fuel, c :: rest =>
      if c = '%' then
        match rest with
        | a :: b :: rest2 =>
            if isHexDigit a && isHexDigit b then
              Char.ofNat (hexVal a * 16 + hexVal b) :: unquoteAux fuel rest2
            else
              c :: unquoteAux fuel rest
        | _ => c :: unquoteAux fuel rest
      else c :: unquoteAux fuel rest

/-- Driver for `unquoteAux`: the fuel starts at the list length and every step
consumes at least one character, so the fuel never runs out. -/
def unquoteChars (l : List Char) : List Char :=
  unquoteAux l.length l

/-- `urllib.parse.unquote` on strings. -/
def unquote (s : String) : String :=
  ⟨unquoteChars s.toList⟩

/-- Split a character list at every occurrence of `sep` (Python `str.split(sep)`
semantics: preserves empty fields). -/
def splitOnChar (sep : Char) : List Char → List (List Char)
  | [] => [[]]
  | c :: rest =>
      let r := splitOnChar sep rest
      if c = sep then [] :: r
      else
        match r with
        | [] => [[c]]
        | h :: t => (c :: h) :: t

/-- `pathlib.Path(s).name`: last path component after dropping empty and `.`
components (`/` separator, as in the pipeline's inputs). -/
def pathName (s : String) : List Char :=
  let comps := (splitOnChar '/' s.toList).filter (fun c => !c.isEmpty && c ≠ ['.'])
  comps.getLastD []

/-- Index (from the left) of the last `.` in a list of characters, if any. -/
def lastDotIdx (l : List Char) : Option Nat :=
  match l.reverse.findIdx? (· = '.') with
  | some j => some (l.length - 1 - j)
  | none => none

/-- `pathlib.PurePath.suffix`: the extension of the final component; empty when
the last dot is the first character or the last character. -/
def pathSuffix (s : String) : String :=
  let n := pathName s
  match lastDotIdx n with
  | some i => if 0 < i && i < n.length - 1 then ⟨n.drop i⟩ else ""
  | none => ""

/-- `pathlib.PurePath.stem`: the final component without its suffix. -/
def pathStem (s : String) : String :=
  let n := pathName s
  match lastDotIdx n with
  | some i => if 0 < i && i < n.length - 1 then ⟨n.take i⟩ else ⟨n⟩
  | none => ⟨n⟩

/-! ### Extension tables (`folio-prebuild.py` lines 52-60) -/

def IMAGE_EXTS : List String :=
  [".png", ".jpg", ".jpeg", ".gif", ".webp", ".bmp", ".tiff"]

def IMAGE_EXTS_FULL : List String :=
  IMAGE_EXTS ++ [".svg", ".heic", ".avif"]

def VIDEO_EXTS : List String :=
  [".mov", ".mp4", ".webm", ".mkv", ".avi", ".flv", ".ogv", ".wmv", ".mpg", ".mpeg"]

def AUDIO_EXTS : List String :=
  [".mp3", ".wav", ".aac", ".ogg", ".m4a", ".flac", ".opus"]

def MODEL_EXTS : List String :=
  [".glb", ".gltf", ".obj", ".fbx", ".stl", ".dae", ".3ds", ".ply"]

def GAME_EXTS : List String :=
  [".html", ".htm", ".unityweb", ".wasm"]

def TEXT_EXTS : List String :=
  [".md", ".markdown", ".txt", ".tex", ".csv", ".json", ".pdf"]

/-- Python `ext.lstrip('.')`: drop all leading dots. -/
def sansDot (ext : String) : String :=
  ⟨ext.toList.dropWhile (· = '.')⟩

/-! ### Type classifier (`determine_collection_item_type`, lines 63-157) -/

/-- The dotless-extension lookup chain shared by the two `elif`/`else` branches
of the raw-type block (lines 91-102 and 105-116): membership of a bare token
in the six extension tables, in source order. -/
def extTokenKind (t : String) : Option String :=
  if t ∈ IMAGE_EXTS_FULL.map sansDot then some "image"
  else if t ∈ VIDEO_EXTS.map sansDot then some "video"
  else if t ∈ AUDIO_EXTS.map sansDot then some "audio"
  else if t ∈ MODEL_EXTS.map sansDot then some "3d-model"
  else if t ∈ GAME_EXTS.map sansDot then some "game"
  else if t ∈ TEXT_EXTS.map sansDot then some "text"
  else none

/-- The dotted-extension lookup chain of the path block (lines 126-137). -/
def extSuffixKind (ext : String) : Option String :=
  if ext ∈ IMAGE_EXTS_FULL then some "image"
  else if ext ∈ VIDEO_EXTS then some "video"
  else if ext ∈ AUDIO_EXTS then some "audio"
  else if ext ∈ MODEL_EXTS then some "3d-model"
  else if ext ∈ GAME_EXTS then some "game"
  else if ext ∈ TEXT_EXTS then some "text"
  else none

/-- The canonical names recognised verbatim by the raw-type block (line 78). -/
def canonNames : List String :=
  ["image", "video", "3d-model", "3d", "game", "text", "audio", "url-link"]

/-- Dispatch on the stripped, lowercased raw type token (lines 71-116). -/
def rawTokenKind (t : String) : Option String :=
  if t = "url" then some "url-link"
  else if t = "folio" then some "folio"
  else if t ∈ canonNames then
    some (if t = "3d" then "3d-model" else t)
  else if t = "file" then none
  else if strStartsWith t "." then extTokenKind (strDrop t 1)
  else extTokenKind t

/-- The raw-type block of `determine_collection_item_type` (lines 68-116).
`none` means the block fell through to path inspection without returning:
this happens for a missing or empty raw type, for the declared type `"file"`
(line 84), and for unrecognised tokens. -/
def rawTypeKind : Option String → Option String
  | none => none
  | some raw =>
      if raw = "" then none
      else rawTokenKind (pyLower (pyStrip raw))

/-- One table of the last-resort substring scan (line 153): some extension
matches `ext.lstrip('.') in lower or ext in lower`. -/
def extHit (lower : String) (exts : List String) : Bool :=
  exts.any (fun e => strContains lower (sansDot e) || strContains lower e)

/-- The last-resort substring scan (lines 142-154): for each extension table in
source order, report its kind if any extension matches.  Within one table
every extension maps to the same kind, so Python's unspecified set-iteration
order does not affect the result. -/
def substrScanKind (lower : String) : Option String :=
  if extHit lower IMAGE_EXTS_FULL then some "image"
  else if extHit lower VIDEO_EXTS then some "video"
  else if extHit lower AUDIO_EXTS then some "audio"
  else if extHit lower MODEL_EXTS then some "3d-model"
  else if extHit lower GAME_EXTS then some "game"
  else if extHit lower TEXT_EXTS then some "text"
  else none

/-- URL test of the path block (line 121): `path_val.strip().startswith(("http://", "https://", "ftp://"))`. -/
def looksLikeUrl (p : String) : Bool :=
  strStartsWith (pyStrip p) "http://" || strStartsWith (pyStrip p) "https://"
    || strStartsWith (pyStrip p) "ftp://"

/-- The path-inspection half of `determine_collection_item_type`
(lines 119-157), ending in the default `"image"`. -/
def pathValKind : Option String → String
  | none => "image"
  | some p =>
      if p = "" then "image"
      else if looksLikeUrl p then "url-link"
      else
        match extSuffixKind (pyLower (pathSuffix (unquote p))) with
        | some k => k
        | none =>
            match substrScanKind (pyLower p) with
            | some k => k
            | none => "image"

/-- `determine_collection_item_type(raw_type, path_val)` (lines 63-157):
a raw-type hit wins, otherwise the path is inspected. -/
def determine_collection_item_type (rawType pathVal : Option String) : String :=
  match rawTypeKind rawType with
  | some k => k
  | none => pathValKind pathVal

/-- The canonical kind strings the classifier can produce.  `"folio"` is the
code's concrete name for the spec's cross-reference kind (spec §4.1 maps the
declared type `"folio"` to the cross-reference kind). -/
def canonicalKinds : List String :=
  ["image", "video", "3d-model", "game", "text", "audio", "url-link", "folio"]

example : determine_collection_item_type (some "mov") none = "video" := by decide
example : determine_collection_item_type none (some "a/b.glb") = "3d-model" := by decide
example : determine_collection_item_type (some "") (some "") = "image" := by decide
example : determine_collection_item_type none (some "https://x.y/z") = "url-link" := by decide
example : determine_collection_item_type (some "Folio") none = "folio" := by decide

theorem extTokenKind_mem (t k : String) (h : extTokenKind t = some k) :
    k ∈ canonicalKinds := by
  unfold extTokenKind at h
  repeat' split at h
  all_goals first
    | exact Option.noConfusion h
    | (injection h with h; subst h; decide)

theorem extSuffixKind_mem (t k : String) (h : extSuffixKind t = some k) :
    k ∈ canonicalKinds := by
  unfold extSuffixKind at h
  repeat' split at h
  all_goals first
    | exact Option.noConfusion h
    | (injection h with h; subst h; decide)

theorem substrScanKind_mem (t k : String) (h : substrScanKind t = some k) :
    k ∈ canonicalKinds := by
  unfold substrScanKind at h
  repeat' split at h
  all_goals first
    | exact Option.noConfusion h
    | (injection h with h; subst h; decide)

theorem rawTokenKind_mem (t k : String) (h : rawTokenKind t = some k) :
    k ∈ canonicalKinds := by
  unfold rawTokenKind at h
  split at h
  · injection h with h; subst h; decide
  split at h
  · injection h with h; subst h; decide
  split at h
  · next hmem =>
      split at h
      · injection h with h; subst h; decide
      · next hne =>
          injection h with h; subst h
          simp only [canonNames, List.mem_cons, List.not_mem_nil, or_false] at hmem
          rcases hmem with h | h | h | h | h | h | h | h
          any_goals (subst h; decide)
          exact absurd h hne
  split at h
  · exact Option.noConfusion h
  split at h
  · exact extTokenKind_mem _ _ h
  · exact extTokenKind_mem _ _ h

theorem rawTypeKind_mem (r : Option String) (k : String) (h : rawTypeKind r = some k) :
    k ∈ canonicalKinds := by
  cases r with
  | none => exact Option.noConfusion h
  | some raw =>
      rw [show rawTypeKind (some raw)
            = if raw = "" then none else rawTokenKind (pyLower (pyStrip raw)) from rfl] at h
      split at h
      · exact Option.noConfusion h
      · exact rawTokenKind_mem _ _ h

theorem pathValKind_mem (p : Option String) : pathValKind p ∈ canonicalKinds := by
  cases p with
  | none => decide
  | some s =>
      rw [show pathValKind (some s)
            = (if s = "" then "image"
               else if looksLikeUrl s then "url-link"
               else match extSuffixKind (pyLower (pathSuffix (unquote s))) with
                 | some k => k
                 | none =>
                     match substrScanKind (pyLower s) with
                     | some k => k
                     | none => "image") from rfl]
      split
      · decide
      split
      · decide
      split
      · next k h => exact extSuffixKind_mem _ _ h
      split
      · next k h => exact substrScanKind_mem _ _ h
      · decide

/-- C5: for every input pair of declared type and path hint — including `None`
and empty strings — `determine_collection_item_type` is total (a Lean function
never raises) and returns one of the fixed canonical kinds, where `"folio"` is
the code's concrete string for the cross-reference kind; with no declared type
and no path hint no rule applies and the result is the default `"image"`. -/
theorem classifier_total_canonical_default :
    (∀ rawType pathVal : Option String,
        determine_collection_item_type rawType pathVal ∈ canonicalKinds)
    ∧ determine_collection_item_type none none = "image"
    ∧ determine_collection_item_type (some "") (some "") = "image" := by
  refine ⟨fun r p => ?_, by decide, by decide⟩
  unfold determine_collection_item_type
  split
  · next k h => exact rawTypeKind_mem _ _ h
  · exact pathValKind_mem p

/-- C10: classifying with the declared type `"file"` gives exactly the same
canonical kind as classifying with no declared type at all, for every path
hint: the `"file"` branch (line 84) only falls through to path inspection. -/
theorem file_type_classifies_like_untyped :
    ∀ p : Option String,
      determine_collection_item_type (some "file") p
        = determine_collection_item_type none p := by
  intro p
  have h : rawTypeKind (some "file") = none := by decide
  unfold determine_collection_item_type
  rw [h]
  rfl

/-! ### Slugs and generated ids (`slugify`, `make_project_folder_name`,
`temp_prebuild.generate_unique_id`, and the id assignment in
`folio-prebuild.main` lines 1281-1283) -/

/-- Python `\w` restricted to ASCII: `[A-Za-z0-9_]`. -/
def isPyWord (c : Char) : Bool :=
  c.isAlpha || c.isDigit || c = '_'

/-- Replace every maximal run of whitespace/`-` characters by a single `_`:
the `re.sub(r"[\s-]+", "_", s)` step of `slugify`.  The flag records whether
the previous character belonged to a run. -/
def collapseRunsAux : Bool → List Char → List Char
  | _, [] => []
  | inRun, c :: rest =>
      if isPySpace c || c = '-' then
        if inRun then collapseRunsAux true rest
        else '_' :: collapseRunsAux true rest
      else c :: collapseRunsAux false rest

/-- The character pipeline of `slugify` before the `or "untitled"` fallback:
strip, lowercase, drop characters outside `[\w\s-]`, collapse whitespace/dash
runs to `_`, strip leading/trailing `_`. -/
def slugCore (name : String) : List Char :=
  let s := (pyLower (pyStrip name)).toList.filter
    (fun c => isPyWord c || isPySpace c || c = '-')
  let collapsed := collapseRunsAux false s
  (collapsed.dropWhile (· = '_')).reverse.dropWhile (· = '_') |>.reverse

/-- `slugify(name)` (`folio-prebuild.py` lines 160-165), falling back to
`"untitled"` when the slug comes out empty.  The `(name or "")` guard for a
falsy argument lives at the call sites of the JSON-level model. -/
def slugify (name : String) : String :=
  if (slugCore name).isEmpty then "untitled" else ⟨slugCore name⟩

example : slugify "My Great Project!" = "my_great_project" := by decide
example : slugify "" = "untitled" := by decide
example : slugify "  --  " = "untitled" := by decide

/-- `make_project_folder_name(title, project_id)` (lines 168-171). -/
def make_project_folder_name (title projectId : String) : String :=
  slugify title ++ "_" ++ projectId

/-- `temp_prebuild.generate_unique_id(base_name, context)` (lines 161-171).
`hash8` abstracts `hashlib.md5(hash_input).hexdigest()[:8]`, the only
external primitive of the function. -/
def generate_unique_id (hash8 : String → String) (baseName context : String) : String :=
  slugify baseName ++ "_" ++ hash8 (baseName ++ "_" ++ context)

/-- The id assigned by `folio-prebuild.main` to a document object lacking a
truthy `id` (lines 1281-1283): `slugify(obj.get("title") or proj_dir.name)`.
String-level view; a missing or empty title falls back to the containing
directory's name. -/
def folioAssignedId (title : Option String) (projDirName : String) : String :=
  match title with
  | some t => if t = "" then slugify projDirName else slugify t
  | none => slugify projDirName

/-- Modelled from the spec: the id format the spec claims for generated ids —
"stable slug; generated from title+path hash if absent" — read through
`generate_unique_id`'s `{slug}_{hash8}` shape: the slug of the title followed
by `_` and an 8-hex-character hash derived from the document's path. -/
def specTitlePathHashId (id title : String) : Prop :=
  ∃ h : String, h.length = 8 ∧ (∀ c ∈ h.toList, isHexDigit c = true)
    ∧ id = slugify title ++ "_" ++ h

/-- C7 counterexample: in the `.folio` pipeline the id assigned to a document
with title `"Demo"` is exactly `"demo"` — it is identical for two different
document paths and is not of the spec's `{slug of title}_{8-hex-char path
hash}` shape (its length is too short to contain any hash component). -/
theorem folio_id_no_path_hash :
    folioAssignedId (some "Demo") "projects/alpha" = "demo"
    ∧ folioAssignedId (some "Demo") "projects/beta"
        = folioAssignedId (some "Demo") "projects/alpha"
    ∧ ¬ specTitlePathHashId (folioAssignedId (some "Demo") "projects/alpha") "Demo" := by
  refine ⟨by decide, by decide, ?_⟩
  rintro ⟨h, hlen, _, heq⟩
  have h1 : folioAssignedId (some "Demo") "projects/alpha" = "demo" := by decide
  have h2 : slugify "Demo" = "demo" := by decide
  rw [h1, h2] at heq
  have hl := congrArg String.length heq
  rw [String.length_append, String.length_append, hlen] at hl
  have e1 : ("demo" : String).length = 4 := by decide
  have e2 : ("_" : String).length = 1 := by decide
  rw [e1, e2] at hl
  omega

/-- C7 amended: a document object lacking a truthy `id` is assigned
`slugify(title)` when its title is a nonempty string — independent of the
document's path — and `slugify(proj_dir.name)` when the title is missing or
empty; no path-hash component is involved.  (The `{slug}_{hash}` format of
`generate_unique_id` belongs to the separate folder-based `temp_prebuild`
pipeline, where it hashes the folder name plus its absolute path.) -/
theorem folio_id_assignment_characterization :
    (∀ t d1 d2 : String, t ≠ "" →
        folioAssignedId (some t) d1 = slugify t
        ∧ folioAssignedId (some t) d1 = folioAssignedId (some t) d2)
    ∧ (∀ d : String, folioAssignedId none d = slugify d
        ∧ folioAssignedId (some "") d = slugify d) := by
  constructor
  · intro t d1 d2 ht
    simp [folioAssignedId, ht]
  · intro d
    exact ⟨rfl, by simp [folioAssignedId]⟩

/-- Witness for `folio_id_assignment_characterization` at concrete inputs. -/
theorem folio_id_assignment_witness :
    folioAssignedId (some "Demo") "p1" = slugify "Demo"
    ∧ folioAssignedId (some "Demo") "p1" = folioAssignedId (some "Demo") "p2"
    ∧ folioAssignedId none "alpha" = slugify "alpha" := by
  obtain ⟨h1, h2⟩ := folio_id_assignment_characterization.1 "Demo" "p1" "p2" (by decide)
  exact ⟨h1, h2, (folio_id_assignment_characterization.2 "alpha").1⟩

/-! ### JSON document model

Documents are parsed by `json.loads` into dicts/lists/strings/numbers/bools;
the pipeline additionally stores `pathlib.Path` values under internal keys
(`_base_dir`).  `JObj` keeps insertion order like a Python dict and carries
each key at most once, the invariant `json.loads` and dict assignment
maintain.  Integer numbers suffice for the pipeline's data (floats do not
occur in the fields the claims concern). -/

mutual

inductive JVal where
  | null
  | bool (b : Bool)
  | num (n : Int)
  | str (s : String)
  | path (p : String)
  | arr (xs : JArr)
  | obj (kvs : JObj)
deriving DecidableEq

inductive JArr where
  | nil
  | cons (hd : JVal) (tl : JArr)
deriving DecidableEq

inductive JObj where
  | nil
  | cons (k : String) (v : JVal) (tl : JObj)
deriving DecidableEq

end

/-- Dict lookup (keys are unique, so the first binding is the binding). -/
def JObj.get : JObj → String → Option JVal
  | .nil, _ => none
  | .cons k2 v rest, k =>
      if k2 = k then some v else JObj.get rest k

/-- Python `key in dict`. -/
def JObj.hasKey (o : JObj) (k : String) : Bool :=
  (o.get k).isSome

/-- Python `dict[key] = value`: replace the binding of `k` in place,
appending when absent. -/
def JObj.set : JObj → String → JVal → JObj
  | .nil, k, v => .cons k v .nil
  | .cons k2 v2 rest, k, v =>
      if k2 = k then .cons k2 v rest
      else .cons k2 v2 (JObj.set rest k v)

/-- Python `del dict[key]`: drop the binding of `k`. -/
def JObj.del : JObj → String → JObj
  | .nil, _ => .nil
  | .cons k2 v rest, k =>
      if k2 = k then rest
      else .cons k2 v (JObj.del rest k)

/-- Python truthiness (`bool(v)`); `Path` objects are always truthy. -/
def JVal.truthy : JVal → Bool
  | .null => false
  | .bool b => b
  | .num n => n ≠ 0
  | .str s => s ≠ ""
  | .path _ => true
  | .arr .nil => false
  | .arr (.cons _ _) => true
  | .obj .nil => false
  | .obj (.cons _ _ _) => true

/-- Truthiness of an optional lookup result (`obj.get(k)`: a missing key is
`None`, hence falsy). -/
def optTruthy : Option JVal → Bool
  | none => false
  | some v => v.truthy

/-- Python `str(v)` for the scalar values the pipeline interpolates into
f-strings.  Container reprs are not modelled: the claims constrain the
interpolated fields (`id`) to strings. -/
def pyStr : JVal → String
  | .str s => s
  | .num n => toString n
  | .bool true => "True"
  | .bool false => "False"
  | .null => "None"
  | .path p => p
  | .arr _ => "<container>"
  | .obj _ => "<container>"

/-! ### Visibility gate (`folio-prebuild.main` lines 1295-1307) -/

/-- The gate that excludes a parsed document object from the build:
`"isPublic" in obj and obj.get("isPublic") is False` (line 1296) or
`"visibility" in obj and obj.get("visibility") != "public"` (line 1303).
`is False` is identity with the boolean `False`; `!= "public"` is structural
inequality with the string. -/
def gateExcludes (o : JObj) : Bool :=
  (o.hasKey "isPublic" && (o.get "isPublic" == some (JVal.bool false)))
    || (o.hasKey "visibility" && !(o.get "visibility" == some (JVal.str "public")))

/-- Modelled from the spec's wording of the visibility gate: excluded iff
`isPublic` is present and equal to the boolean false, or `visibility` is
present and not exactly the string `"public"`. -/
def specExcluded (o : JObj) : Prop :=
  (∃ v, o.get "isPublic" = some v ∧ v = JVal.bool false)
    ∨ (∃ v, o.get "visibility" = some v ∧ v ≠ JVal.str "public")

/-- C3: the code's visibility gate excludes a document object exactly under
the spec's condition, and an object with neither field present is included. -/
theorem visibility_gate_matches_spec :
    (∀ o : JObj, specExcluded o ↔ gateExcludes o = true)
    ∧ (∀ o : JObj, o.get "isPublic" = none → o.get "visibility" = none →
        gateExcludes o = false) := by
  constructor
  · intro o
    unfold specExcluded gateExcludes JObj.hasKey
    constructor
    · rintro (⟨v, hv, rfl⟩ | ⟨v, hv, hne⟩)
      · simp [hv]
      · refine Bool.or_eq_true_iff.mpr (Or.inr ?_)
        simp [hv]
        intro h
        exact hne (by simpa using h)
    · intro h
      rcases Bool.or_eq_true_iff.mp h with h | h
      · simp only [Bool.and_eq_true] at h
        obtain ⟨h1, h2⟩ := h
        left
        rcases Option.isSome_iff_exists.mp h1 with ⟨v, hv⟩
        refine ⟨v, hv, ?_⟩
        rw [hv] at h2
        simpa using h2
      · simp only [Bool.and_eq_true] at h
        obtain ⟨h1, h2⟩ := h
        right
        rcases Option.isSome_iff_exists.mp h1 with ⟨v, hv⟩
        refine ⟨v, hv, ?_⟩
        rw [hv] at h2
        intro hcon
        subst hcon
        simp at h2
  · intro o h1 h2
    unfold gateExcludes JObj.hasKey
    rw [h1, h2]
    rfl

/-- Witness for `visibility_gate_matches_spec`: a concrete object with
`visibility = "draft"` is excluded, via the theorem's spec direction. -/
theorem visibility_gate_witness :
    gateExcludes (JObj.cons "visibility" (JVal.str "draft") JObj.nil) = true :=
  (visibility_gate_matches_spec.1 _).mp
    (Or.inr ⟨JVal.str "draft", by decide, by decide⟩)

/-! ### Manifest sanitisation (`_sanitize_for_json`, lines 851-890) -/

/-- Folio-internal fields removed from the final output (lines 866-869). -/
def REMOVE_KEYS : List String :=
  ["assetsFolder", "requiresFollowUp"]

/-- Whether `_sanitize_for_json` drops the key `k` (lines 876-884): keys
starting with `_`, Folio internals, and `filePath` at the project root. -/
def dropKey (isProjectRoot : Bool) (k : String) : Bool :=
  strStartsWith k "_" || REMOVE_KEYS.contains k || (isProjectRoot && k == "filePath")

mutual

/-- `_sanitize_for_json(value, is_project_root)` (lines 851-890): convert
`Path` values to strings, drop internal keys recursively, recurse into
containers with `is_project_root=False`. -/
def sanitize_for_json (isProjectRoot : Bool) : JVal → JVal
  | .path p => .str p
  | .obj kvs => .obj (sanitizeObj isProjectRoot kvs)
  | .arr xs => .arr (sanitizeArr xs)
  | .null => .null
  | .bool b => .bool b
  | .num n => .num n
  | .str s => .str s

/-- The dict branch of `_sanitize_for_json`. -/
def sanitizeObj (isProjectRoot : Bool) : JObj → JObj
  | .nil => .nil
  | .cons k v rest =>
      if dropKey isProjectRoot k then sanitizeObj isProjectRoot rest
      else .cons k (sanitize_for_json false v) (sanitizeObj isProjectRoot rest)

/-- The list branch of `_sanitize_for_json`. -/
def sanitizeArr : JArr → JArr
  | .nil => .nil
  | .cons v rest => .cons (sanitize_for_json false v) (sanitizeArr rest)

end

mutual

/-- No key anywhere in the value starts with an underscore. -/
def JVal.noUnderscoreKeys : JVal → Bool
  | .obj kvs => kvs.noUnderscoreKeys
  | .arr xs => xs.noUnderscoreKeys
  | _ => true

def JArr.noUnderscoreKeys : JArr → Bool
  | .nil => true
  | .cons v rest => v.noUnderscoreKeys && rest.noUnderscoreKeys

def JObj.noUnderscoreKeys : JObj → Bool
  | .nil => true
  | .cons k v rest =>
      !strStartsWith k "_" && v.noUnderscoreKeys && rest.noUnderscoreKeys

end

mutual

theorem sanitize_noUnderscore (root : Bool) :
    (v : JVal) → (sanitize_for_json root v).noUnderscoreKeys = true
  | .null => rfl
  | .bool _ => rfl
  | .num _ => rfl
  | .str _ => rfl
  | .path _ => rfl
  | .obj kvs => sanitizeObj_noUnderscore root kvs
  | .arr xs => sanitizeArr_noUnderscore xs

theorem sanitizeObj_noUnderscore (root : Bool) :
    (o : JObj) → (JObj.noUnderscoreKeys (sanitizeObj root o)) = true
  | .nil => rfl
  | .cons k v rest => by
      rw [sanitizeObj]
      split
      · exact sanitizeObj_noUnderscore root rest
      · next hdrop =>
          have hk : strStartsWith k "_" = false := by
            cases hb : strStartsWith k "_" with
            | false => rfl
            | true => exact absurd (by simp [dropKey, hb]) hdrop
          rw [JObj.noUnderscoreKeys]
          rw [hk, sanitize_noUnderscore false v, sanitizeObj_noUnderscore root rest]
          rfl

theorem sanitizeArr_noUnderscore :
    (xs : JArr) → (JArr.noUnderscoreKeys (sanitizeArr xs)) = true
  | .nil => rfl
  | .cons v rest => by
      rw [sanitizeArr, JArr.noUnderscoreKeys]
      rw [sanitize_noUnderscore false v, sanitizeArr_noUnderscore rest]
      rfl

end

/-! ### Per-object processing in `folio-prebuild.main` (lines 1281-1446)

The steps below model the field mutations the loop applies to one parsed
document object before it joins the aggregate list: id assignment, the
visibility gate, title→name mapping, the domain default, the internal
`_base_dir` key, and the `folderName` assignment.  The asset-copy calls in
between only rewrite `images`/`resources`/`collection` slot values and never
touch `id`, `folderName`, or key names; they are not modelled here (the
underscore-key invariant is proved for arbitrary values instead). -/

/-- `slugify(v)` for a truthy value: strings are slugified; a truthy
non-string raises in Python (`none` here). -/
def slugifyTruthyVal : JVal → Option String
  | .str t => some (slugify t)
  | _ => none

/-- `slugify(obj.get("title") or proj_dir.name)` (line 1283): a falsy title
falls back to the directory name; a truthy non-string title raises in Python
(`none` here), which skips the whole candidate file. -/
def slugifyOfOr (title : Option JVal) (fallback : String) : Option String :=
  match title with
  | none => some (slugify fallback)
  | some v => if v.truthy then slugifyTruthyVal v else some (slugify fallback)

/-- `slugify(obj.get("title", ""))` (line 1442, via `make_project_folder_name`):
a missing or falsy title slugifies the empty string (yielding `"untitled"`);
a truthy non-string title raises (`none`). -/
def slugifyDefaultEmpty (title : Option JVal) : Option String :=
  match title with
  | none => some (slugify "")
  | some v => if v.truthy then slugifyTruthyVal v else some (slugify "")

/-- Id assignment (lines 1281-1283): objects without a truthy `id` get the
generated slug. -/
def assignIdStep (dirName : String) (o : JObj) : Option JObj :=
  if optTruthy (o.get "id") then some o
  else
    match slugifyOfOr (o.get "title") dirName with
    | some s => some (o.set "id" (JVal.str s))
    | none => none

/-- Title→name mapping (lines 1310-1311). -/
def applyNameMap (o : JObj) : JObj :=
  if o.hasKey "title" && !o.hasKey "name" then
    match o.get "title" with
    | some tv => o.set "name" tv
    | none => o
  else o

/-- Domain default (lines 1314-1315). -/
def applyDomainDefault (o : JObj) : JObj :=
  if optTruthy (o.get "domain") then o
  else o.set "domain" (JVal.str "Unknown Domain")

/-- Internal base-directory key (line 1361): a `pathlib.Path` value stored
under `_base_dir`. -/
def applyBaseDir (dirName : String) (o : JObj) : JObj :=
  o.set "_base_dir" (JVal.path dirName)

/-- `folderName` assignment (lines 1442-1443):
`make_project_folder_name(obj.get("title", ""), obj["id"])`, i.e. the
slugified title joined by `_` to `str(id)`. -/
def folderNameStep (o : JObj) : Option JObj :=
  match o.get "id", slugifyDefaultEmpty (o.get "title") with
  | some idv, some ts => some (o.set "folderName" (JVal.str (ts ++ "_" ++ pyStr idv)))
  | _, _ => none

/-- The per-object pipeline of `main` (lines 1281-1446): `none` when the
object is skipped by the visibility gate or its processing raises (the
candidate file is then recorded as skipped and contributes no manifest
record). -/
def processObject (dirName : String) (o : JObj) : Option JObj :=
  (assignIdStep dirName o).bind fun o1 =>
    if gateExcludes o1 then none
    else folderNameStep (applyBaseDir dirName (applyDomainDefault (applyNameMap o1)))

theorem JObj.get_set_self : (o : JObj) → ∀ (k : String) (v : JVal),
    (o.set k v).get k = some v
  | .nil => by
      intro k v
      simp [JObj.set, JObj.get]
  | .cons k2 v2 rest => by
      intro k v
      rw [JObj.set]
      split
      · next he => simp [JObj.get, he]
      · next he => simp [JObj.get, he, JObj.get_set_self rest k v]

theorem JObj.get_set_ne : (o : JObj) → ∀ (k k2 : String) (v : JVal), k2 ≠ k →
    (o.set k v).get k2 = o.get k2
  | .nil => by
      intro k k2 v h
      simp [JObj.set, JObj.get]
      intro he
      exact absurd he.symm h
  | .cons k3 v3 rest => by
      intro k k2 v h
      rw [JObj.set]
      split
      · next he =>
          have hne : k3 ≠ k2 := by
            subst he
            exact fun hc => h hc.symm
          simp [JObj.get, hne]
      · rw [JObj.get, JObj.get, JObj.get_set_ne rest k k2 v h]

theorem slugify_ne_empty (s : String) : slugify s ≠ "" := by
  unfold slugify
  split
  · decide
  · next hne =>
      intro hcon
      have hd := congrArg String.data hcon
      simp only [String.data] at hd
      rw [hd] at hne
      simp at hne

theorem append_underscore_ne_empty (a b : String) : a ++ "_" ++ b ≠ "" := by
  intro hcon
  have hl := congrArg String.length hcon
  rw [String.length_append, String.length_append] at hl
  have e1 : ("_" : String).length = 1 := by decide
  have e2 : ("" : String).length = 0 := by decide
  rw [e1, e2] at hl
  omega

theorem sanitizeObj_get (root : Bool) :
    (o : JObj) → ∀ (k : String), dropKey root k = false →
      (sanitizeObj root o).get k = (o.get k).map (sanitize_for_json false)
  | .nil => by
      intro k _
      rfl
  | .cons k2 v rest => by
      intro k hk
      rw [sanitizeObj]
      split
      · next hdrop =>
          have hne : k2 ≠ k := by
            intro he
            rw [he] at hdrop
            rw [hdrop] at hk
            exact Bool.noConfusion hk
          rw [sanitizeObj_get root rest k hk, JObj.get]
          simp [hne]
      · rw [JObj.get, JObj.get, sanitizeObj_get root rest k hk]
        by_cases he : k2 = k
        · simp [he]
        · simp [he]

theorem slugifyTruthyVal_ne_empty : (v : JVal) → ∀ s : String,
    slugifyTruthyVal v = some s → s ≠ ""
  | .str t => by
      intro s h
      injection h with h
      exact h ▸ slugify_ne_empty t
  | .null | .bool _ | .num _ | .path _ | .arr _ | .obj _ => by
      intro s h
      exact Option.noConfusion h

theorem slugifyOfOr_ne_empty (title : Option JVal) (fallback s : String)
    (h : slugifyOfOr title fallback = some s) : s ≠ "" := by
  cases title with
  | none =>
      have h2 : some (slugify fallback) = some s := h
      injection h2 with h2
      exact h2 ▸ slugify_ne_empty fallback
  | some v =>
      have h2 : (if v.truthy then slugifyTruthyVal v else some (slugify fallback))
          = some s := h
      split at h2
      · exact slugifyTruthyVal_ne_empty v s h2
      · injection h2 with h2
        exact h2 ▸ slugify_ne_empty fallback

theorem applyNameMap_get (o : JObj) (k : String) (hk : k ≠ "name") :
    (applyNameMap o).get k = o.get k := by
  unfold applyNameMap
  split
  · split
    · exact JObj.get_set_ne o "name" k _ hk
    · rfl
  · rfl

theorem applyDomainDefault_get (o : JObj) (k : String) (hk : k ≠ "domain") :
    (applyDomainDefault o).get k = o.get k := by
  unfold applyDomainDefault
  split
  · rfl
  · exact JObj.get_set_ne o "domain" k _ hk

theorem applyBaseDir_get (dirName : String) (o : JObj) (k : String)
    (hk : k ≠ "_base_dir") : (applyBaseDir dirName o).get k = o.get k :=
  JObj.get_set_ne o "_base_dir" k _ hk

theorem assignIdStep_id (dirName : String) (o o1 : JObj)
    (hid : o.get "id" = none ∨ ∃ s, o.get "id" = some (JVal.str s))
    (h : assignIdStep dirName o = some o1) :
    ∃ s, s ≠ "" ∧ o1.get "id" = some (JVal.str s) := by
  unfold assignIdStep at h
  split at h
  · next htr =>
      injection h with h
      subst h
      rcases hid with hnone | ⟨s, hs⟩
      · rw [hnone] at htr
        exact absurd htr (by decide)
      · refine ⟨s, ?_, hs⟩
        rw [hs] at htr
        simp only [optTruthy, JVal.truthy] at htr
        exact of_decide_eq_true htr
  · cases hslug : slugifyOfOr (o.get "title") dirName with
    | none => rw [hslug] at h; exact Option.noConfusion h
    | some s =>
        rw [hslug] at h
        injection h with h
        subst h
        exact ⟨s, slugifyOfOr_ne_empty _ _ _ hslug, JObj.get_set_self o "id" (JVal.str s)⟩

theorem assignIdStep_get (dirName : String) (o o1 : JObj) (k : String)
    (hk : k ≠ "id") (h : assignIdStep dirName o = some o1) :
    o1.get k = o.get k := by
  unfold assignIdStep at h
  split at h
  · injection h with h
    subst h
    rfl
  · cases hslug : slugifyOfOr (o.get "title") dirName with
    | none => rw [hslug] at h; exact Option.noConfusion h
    | some s =>
        rw [hslug] at h
        injection h with h
        subst h
        exact JObj.get_set_ne o "id" k _ hk

/-- C9: (a) the sanitised output of `_sanitize_for_json` contains no key
starting with an underscore anywhere — in particular the internal
`_base_dir` field never appears; (b) every document object that survives
per-object processing yields a manifest record whose sanitised form has a
non-empty string `id` and a `folderName` equal to the slugified title joined
by `_` to the id, itself non-empty.  The hypothesis restricts a supplied `id`
field to a string, the type the data model gives it. -/
theorem manifest_record_invariants :
    (∀ (root : Bool) (v : JVal), (sanitize_for_json root v).noUnderscoreKeys = true)
    ∧ (∀ (dirName : String) (o rec : JObj),
        (o.get "id" = none ∨ ∃ s, o.get "id" = some (JVal.str s)) →
        processObject dirName o = some rec →
        ∃ s ts, s ≠ ""
          ∧ slugifyDefaultEmpty (o.get "title") = some ts
          ∧ (sanitizeObj true rec).get "id" = some (JVal.str s)
          ∧ (sanitizeObj true rec).get "folderName" = some (JVal.str (ts ++ "_" ++ s))
          ∧ ts ++ "_" ++ s ≠ "") := by
  refine ⟨sanitize_noUnderscore, ?_⟩
  intro dirName o rec hid hp
  unfold processObject at hp
  cases ha : assignIdStep dirName o with
  | none => rw [ha] at hp; exact Option.noConfusion hp
  | some o1 =>
      rw [ha] at hp
      have hp2 : (if gateExcludes o1 then none
          else folderNameStep (applyBaseDir dirName (applyDomainDefault (applyNameMap o1))))
          = some rec := hp
      clear hp
      split at hp2
      · exact Option.noConfusion hp2
      · obtain ⟨s, hsne, hs1⟩ := assignIdStep_id dirName o o1 hid ha
        have htitle : o1.get "title" = o.get "title" :=
          assignIdStep_get dirName o o1 "title" (by decide) ha
        -- the field chain preserves `id` and `title`
        have hid4 : (applyBaseDir dirName (applyDomainDefault (applyNameMap o1))).get "id"
            = some (JVal.str s) := by
          rw [applyBaseDir_get dirName _ "id" (by decide),
              applyDomainDefault_get _ "id" (by decide),
              applyNameMap_get _ "id" (by decide), hs1]
        have htitle4 : (applyBaseDir dirName (applyDomainDefault (applyNameMap o1))).get "title"
            = o.get "title" := by
          rw [applyBaseDir_get dirName _ "title" (by decide),
              applyDomainDefault_get _ "title" (by decide),
              applyNameMap_get _ "title" (by decide), htitle]
        unfold folderNameStep at hp2
        rw [hid4, htitle4] at hp2
        cases hts : slugifyDefaultEmpty (o.get "title") with
        | none => rw [hts] at hp2; exact Option.noConfusion hp2
        | some ts =>
            rw [hts] at hp2
            have hp3 : some ((applyBaseDir dirName (applyDomainDefault (applyNameMap o1))).set
                "folderName" (JVal.str (ts ++ "_" ++ pyStr (JVal.str s)))) = some rec := hp2
            clear hp2
            injection hp3 with hp3
            refine ⟨s, ts, hsne, rfl, ?_, ?_, append_underscore_ne_empty ts s⟩
            · have hgid : rec.get "id" = some (JVal.str s) := by
                rw [← hp3, JObj.get_set_ne _ "folderName" "id" _ (by decide), hid4]
              rw [sanitizeObj_get true rec "id" (by decide), hgid]
              rfl
            · have hgfn : rec.get "folderName"
                  = some (JVal.str (ts ++ "_" ++ pyStr (JVal.str s))) := by
                rw [← hp3]
                exact JObj.get_set_self _ "folderName" _
              rw [sanitizeObj_get true rec "folderName" (by decide), hgfn]
              rfl

/-- Witness for `manifest_record_invariants` at a concrete document: title
`"Demo"`, no supplied id, processed in directory `proj`. -/
theorem manifest_record_invariants_witness :
    ∃ s ts, s ≠ ""
      ∧ slugifyDefaultEmpty ((JObj.cons "title" (JVal.str "Demo") JObj.nil).get "title") = some ts
      ∧ (sanitizeObj true (JObj.cons "title" (JVal.str "Demo") (JObj.cons "id" (JVal.str "demo")
          (JObj.cons "name" (JVal.str "Demo") (JObj.cons "domain" (JVal.str "Unknown Domain")
          (JObj.cons "_base_dir" (JVal.path "proj")
          (JObj.cons "folderName" (JVal.str "demo_demo") JObj.nil))))))).get "id"
          = some (JVal.str s)
      ∧ (sanitizeObj true (JObj.cons "title" (JVal.str "Demo") (JObj.cons "id" (JVal.str "demo")
          (JObj.cons "name" (JVal.str "Demo") (JObj.cons "domain" (JVal.str "Unknown Domain")
          (JObj.cons "_base_dir" (JVal.path "proj")
          (JObj.cons "folderName" (JVal.str "demo_demo") JObj.nil))))))).get "folderName"
          = some (JVal.str (ts ++ "_" ++ s))
      ∧ ts ++ "_" ++ s ≠ "" :=
  manifest_record_invariants.2 "proj" (JObj.cons "title" (JVal.str "Demo") JObj.nil)
    (JObj.cons "title" (JVal.str "Demo") (JObj.cons "id" (JVal.str "demo")
      (JObj.cons "name" (JVal.str "Demo") (JObj.cons "domain" (JVal.str "Unknown Domain")
      (JObj.cons "_base_dir" (JVal.path "proj")
      (JObj.cons "folderName" (JVal.str "demo_demo") JObj.nil))))))
    (Or.inl (by decide)) (by decide)

/-! ### Asset locator fallback scans (`copy_images_for_project` lines 290-301,
`copy_collection_for_project` lines 564-574)

A directory snapshot is a list of entries in the order `Path.rglob("*")` /
`os.walk` yields them.  Both APIs traverse in pre-order — each directory's
own entries come before any subdirectory's contents — but WITHIN one
directory the order is whatever `os.scandir` returns: unspecified and
filesystem-dependent, not sorted (contrast `collect_folio_files`, which
sorts its matches explicitly at line 1238).  The lists used in the theorems
below respect the pre-order structure; only the within-directory order is
exercised. -/

structure FileEntry where
  path : String
  isFile : Bool
deriving DecidableEq

/-- The match condition of the image fallback scan (line 295):
`p.is_file() and p.stem.lower() == stem and p.suffix.lower() in IMAGE_EXTS`. -/
def imageStemPred (stem : String) (e : FileEntry) : Bool :=
  e.isFile && (pyLower (pathStem e.path) == stem)
    && IMAGE_EXTS.contains (pyLower (pathSuffix e.path))

/-- The image fallback scan (lines 290-301): first entry of the `rglob`
enumeration matching the stem with an image extension. -/
def imageStemScan (entries : List FileEntry) (stem : String) : Option FileEntry :=
  entries.find? (imageStemPred stem)

/-- The match condition of the collection-file fallback scan (line 570):
same stem, any extension. -/
def stemPred (stem : String) (e : FileEntry) : Bool :=
  e.isFile && (pyLower (pathStem e.path) == stem)

/-- The collection-file fallback scan (lines 564-574) over the flattened
`os.walk` enumeration. -/
def walkStemScan (entries : List FileEntry) (stem : String) : Option FileEntry :=
  entries.find? (stemPred stem)

/-- Lexicographic order on character lists by character code: the order
Python `sorted` uses on path strings. -/
def charListLt : List Char → List Char → Bool
  | [], [] => false
  | [], _ :: _ => true
  | _ :: _, [] => false
  | a :: as, b :: bs =>
      if a.toNat < b.toNat then true
      else if b.toNat < a.toNat then false
      else charListLt as bs

/-- Python `a < b` on path strings. -/
def pathLt (a b : String) : Bool :=
  charListLt a.toList b.toList

/-- Modelled from the spec: "deterministic, path-sorted first match" — the
lexicographically-least path among the matching entries. -/
def pathSortedFirst (entries : List FileEntry) (pred : FileEntry → Bool) : Option FileEntry :=
  match entries.filter pred with
  | [] => none
  | e :: rest => some (rest.foldl (fun best x => if pathLt x.path best.path then x else best) e)

theorem find?_eq_head_filter {α : Type} (p : α → Bool) :
    ∀ l : List α, l.find? p = (l.filter p).head?
  | [] => rfl
  | a :: l => by
      cases hp : p a with
      | false =>
          rw [show List.find? p (a :: l) = List.find? p l from by rw [List.find?, hp]]
          rw [show List.filter p (a :: l) = List.filter p l from by rw [List.filter, hp]]
          exact find?_eq_head_filter p l
      | true =>
          rw [show List.find? p (a :: l) = some a from by rw [List.find?, hp]]
          rw [show List.filter p (a :: l) = a :: List.filter p l from by rw [List.filter, hp]]
          rfl

theorem filter_eq_nil_of_all_false {α : Type} (p : α → Bool) :
    ∀ l : List α, (∀ e ∈ l, p e = false) → l.filter p = []
  | [] => fun _ => rfl
  | a :: l => fun h => by
      simp [List.filter, h a (List.mem_cons_self a l),
            filter_eq_nil_of_all_false p l (fun e he => h e (List.mem_cons_of_mem a he))]

/-- C8 counterexample: two image files with the same stem `img` in the SAME
directory, so the enumeration order between them is the unspecified
`os.scandir` order and this snapshot — `img.png` enumerated before `img.jpg` —
is one `Path.rglob("*")` / `os.walk` can genuinely produce (pre-order is
respected trivially: both files are that directory's own entries).  The
fallback scan returns the enumeration-first match `img.png`, while the
path-sorted first match is `img.jpg` (since `"...img.jpg" < "...img.png"`),
so the scan's result is not the path-sorted first match the claim specifies. -/
theorem locator_not_path_sorted :
    imageStemScan
        [⟨"Projects/p/img.png", true⟩, ⟨"Projects/p/img.jpg", true⟩] "img"
      = some ⟨"Projects/p/img.png", true⟩
    ∧ pathSortedFirst
        [⟨"Projects/p/img.png", true⟩, ⟨"Projects/p/img.jpg", true⟩]
        (imageStemPred "img")
      = some ⟨"Projects/p/img.jpg", true⟩
    ∧ imageStemScan
        [⟨"Projects/p/img.png", true⟩, ⟨"Projects/p/img.jpg", true⟩] "img"
      ≠ pathSortedFirst
        [⟨"Projects/p/img.png", true⟩, ⟨"Projects/p/img.jpg", true⟩]
        (imageStemPred "img") := by
  refine ⟨by decide, by decide, by decide⟩

/-- C8 amended: both fallback scans return the first same-stem match in the
order the directory enumeration yields entries (not the path-sorted first
match); against a fixed enumeration the result is a pure function of the
snapshot, and the absence of a match is the normal `None` outcome (the caller
skips the asset), not an error. -/
theorem locator_fallback_characterization :
    (∀ (entries : List FileEntry) (stem : String),
        imageStemScan entries stem = (entries.filter (imageStemPred stem)).head?
        ∧ walkStemScan entries stem = (entries.filter (stemPred stem)).head?)
    ∧ (∀ (entries : List FileEntry) (stem : String),
        (∀ e ∈ entries, imageStemPred stem e = false) →
        imageStemScan entries stem = none) := by
  constructor
  · intro entries stem
    exact ⟨find?_eq_head_filter _ entries, find?_eq_head_filter _ entries⟩
  · intro entries stem h
    rw [imageStemScan, find?_eq_head_filter, filter_eq_nil_of_all_false _ entries h]
    rfl

/-- Witness for `locator_fallback_characterization`: a snapshot with a single
non-image file has no match, and the scan returns `none`. -/
theorem locator_fallback_witness :
    imageStemScan [⟨"Projects/p/notes.txt", true⟩] "img" = none
    ∧ imageStemScan [⟨"Projects/p/sub/img.png", true⟩, ⟨"Projects/p/img.png", true⟩] "img"
        = ([⟨"Projects/p/sub/img.png", true⟩, ⟨"Projects/p/img.png", true⟩].filter
            (imageStemPred "img")).head? :=
  ⟨locator_fallback_characterization.2 [⟨"Projects/p/notes.txt", true⟩] "img" (by decide),
   (locator_fallback_characterization.1 _ "img").1⟩

/-! ### Cross-reference resolution (`resolve_folio_resources`, lines 710-848)

Warnings are modelled as (source-project title, unresolved target) pairs —
the data the formatted warning line carries.  A truthy non-string `url`
value would raise in Python (`AttributeError` inside `normalize_url`); the
model returns `none` for the whole call in that case. -/

/-- `urlparse(url).path` for a `file://` URL: the part after the authority
(the segment between `file://` and the next `/`), cut at the first query or
fragment delimiter. -/
def fileUrlPath (url : String) : String :=
  let rest := (strDrop url 7).toList
  let pathPart := rest.drop ((rest.takeWhile (· ≠ '/')).length)
  ⟨pathPart.takeWhile (fun c => !(c = '?' || c = '#'))⟩

/-- `normalize_url` (lines 726-738): strip a `file://` prefix via
`urlparse` + `unquote`, then strip trailing slashes; empty input stays empty. -/
def normalize_url (url : String) : String :=
  if url = "" then ""
  else
    let u := if strStartsWith url "file://" then unquote (fileUrlPath url) else url
    ⟨(u.toList.reverse.dropWhile (· = '/')).reverse⟩

/-- Python-dict lookup over an insertion-ordered association list: the last
binding of a key wins, matching dict overwrite on collision. -/
def dictLookup : List (String × String) → String → Option String
  | [], _ => none
  | (k2, v) :: rest, k =>
      match dictLookup rest k with
      | some r => some r
      | none => if k2 = k then some v else none

/-- The normalized lookup map built from `folio_url_to_id` (lines 741-745). -/
def normalizeMap (m : List (String × String)) : List (String × String) :=
  m.map (fun kv => (normalize_url kv.1, kv.2))

/-- `isinstance(v, str) and v.lower() == 'folio'` on an optional field. -/
def jvalIsFolioStr : Option JVal → Bool
  | some (JVal.str t) => pyLower t == "folio"
  | _ => false

/-- `is_folio_resource(res)` (lines 747-754): `type` or `category` is the
string `folio`, case-insensitively; non-string values never match. -/
def is_folio_resource (res : JObj) : Bool :=
  jvalIsFolioStr (res.get "type") || jvalIsFolioStr (res.get "category")

/-- `res.get('url', '')` as fed to `normalize_url`: a missing key defaults to
`""`; a falsy non-string value passes the `if not url` guard and normalizes
to `""`; a truthy non-string raises (`none`). -/
def pyUrlArg : Option JVal → Option String
  | none => some ""
  | some (JVal.str u) => some u
  | some v => if v.truthy then none else some ""

/-- A recorded cross-reference warning: the source project's title and the
unresolved target, the data the formatted message carries (lines 780, 815,
834). -/
structure FolioWarning where
  projectTitle : String
  target : String
deriving DecidableEq

/-- One iteration of the `valid_resources` loop body (lines 765-784):
`some r2` keeps an entry (possibly rewritten), `none` in the first component
drops it; the warning list carries the miss warning.  A folio-flagged dict
resource is rewritten to a `local-link` at `/projects/{id}` on a lookup hit
and dropped with one warning on a miss; non-dict entries and non-folio
resources are kept unchanged. -/
def resolveResource (m : List (String × String)) (title : String) (r : JVal) :
    Option (Option JVal × List FolioWarning) :=
  match r with
  | JVal.obj ro =>
      if is_folio_resource ro then
        match pyUrlArg (ro.get "url") with
        | none => none
        | some url =>
            match dictLookup m (normalize_url url) with
            | some pid =>
                some (some (JVal.obj ((ro.set "type" (JVal.str "local-link")).set
                  "url" (JVal.str ("/projects/" ++ pid)))), [])
            | none => some (none, [⟨title, url⟩])
      else some (some r, [])
  | _ => some (some r, [])

/-- The `valid_resources` loop (lines 763-786) over one resources array. -/
def resolveResList (m : List (String × String)) (title : String) :
    JArr → Option (JArr × List FolioWarning)
  | .nil => some (.nil, [])
  | .cons r rest =>
      match resolveResource m title r with
      | none => none
      | some (keep, ws) =>
          match resolveResList m title rest with
          | none => none
          | some (tailArr, tailWs) =>
              some ((match keep with
                     | some r2 => JArr.cons r2 tailArr
                     | none => tailArr), ws ++ tailWs)

/-- Item-level handling, first phase (lines 804-817): an item whose own
`type` is the string `folio` is rewritten in place on a hit — which requires
a nonempty normalized target — and otherwise LEFT IN PLACE, with one warning
when its url is truthy; nothing records a warning for a falsy url. -/
def itemPhase1 (m : List (String × String)) (title : String) (io : JObj) :
    Option (JObj × List FolioWarning) :=
  if jvalIsFolioStr (io.get "type") then
    match pyUrlArg (io.get "url") with
    | none => none
    | some url =>
        match (if normalize_url url = "" then none else dictLookup m (normalize_url url)) with
        | some pid =>
            some ((io.set "type" (JVal.str "local-link")).set "url"
              (JVal.str ("/projects/" ++ pid)), [])
        | none =>
            if url = "" then some (io, []) else some (io, [⟨title, url⟩])
  else some (io, [])

/-- Item-level handling, second phase (lines 819-838): a folio-flagged
`resource` object inside the item is rewritten on a hit (also updating the
item's own `url` when present) and DELETED from the item with one warning on
a miss. -/
def itemPhase2 (m : List (String × String)) (title : String) (io : JObj) :
    Option (JObj × List FolioWarning) :=
  match io.get "resource" with
  | some (JVal.obj ro) =>
      if is_folio_resource ro then
        match pyUrlArg (ro.get "url") with
        | none => none
        | some url =>
            match dictLookup m (normalize_url url) with
            | some pid =>
                some ((if (io.set "resource" (JVal.obj ((ro.set "type"
                    (JVal.str "local-link")).set "url"
                    (JVal.str ("/projects/" ++ pid))))).hasKey "url" then
                  (io.set "resource" (JVal.obj ((ro.set "type"
                    (JVal.str "local-link")).set "url"
                    (JVal.str ("/projects/" ++ pid))))).set "url"
                    (JVal.str ("/projects/" ++ pid))
                 else
                  io.set "resource" (JVal.obj ((ro.set "type"
                    (JVal.str "local-link")).set "url"
                    (JVal.str ("/projects/" ++ pid))))), [])
            | none => some (io.del "resource", [⟨title, url⟩])
      else some (io, [])
  | _ => some (io, [])

/-- Both item phases in source order (lines 800-838); non-dict items are
skipped unchanged. -/
def resolveItem (m : List (String × String)) (title : String) (item : JVal) :
    Option (JVal × List FolioWarning) :=
  match item with
  | JVal.obj io =>
      match itemPhase1 m title io with
      | none => none
      | some (io1, ws1) =>
          match itemPhase2 m title io1 with
          | none => none
          | some (io2, ws2) => some (JVal.obj io2, ws1 ++ ws2)
  | _ => some (item, [])

/-- The per-item loop over a collection's items array. -/
def resolveItems (m : List (String × String)) (title : String) :
    JArr → Option (JArr × List FolioWarning)
  | .nil => some (.nil, [])
  | .cons it rest =>
      match resolveItem m title it with
      | none => none
      | some (it2, ws) =>
          match resolveItems m title rest with
          | none => none
          | some (rest2, wsr) => some (.cons it2 rest2, ws ++ wsr)

/-- One collection entry (lines 790-798): a bare array or an object with an
`items` list is processed; anything else is skipped unchanged. -/
def resolveCollectionData (m : List (String × String)) (title : String) (cd : JVal) :
    Option (JVal × List FolioWarning) :=
  match cd with
  | JVal.arr items =>
      match resolveItems m title items with
      | none => none
      | some (items2, ws) => some (JVal.arr items2, ws)
  | JVal.obj co =>
      match co.get "items" with
      | some (JVal.arr items) =>
          match resolveItems m title items with
          | none => none
          | some (items2, ws) => some (JVal.obj (co.set "items" (JVal.arr items2)), ws)
      | _ => some (cd, [])
  | _ => some (cd, [])

/-- The loop over the project's `collection` dict. -/
def resolveCollections (m : List (String × String)) (title : String) :
    JObj → Option (JObj × List FolioWarning)
  | .nil => some (.nil, [])
  | .cons cname cd rest =>
      match resolveCollectionData m title cd with
      | none => none
      | some (cd2, ws) =>
          match resolveCollections m title rest with
          | none => none
          | some (rest2, wsr) => some (.cons cname cd2 rest2, ws ++ wsr)

/-- `project.get('title', 'Unknown')` interpolated into warnings (line 760). -/
def projectTitleStr (po : JObj) : String :=
  match po.get "title" with
  | none => "Unknown"
  | some v => pyStr v

/-- One project of the `resolve_folio_resources` loop (lines 756-838):
top-level resources first, then the collection dict; non-dict projects are
skipped unchanged. -/
def resolveProject (m : List (String × String)) (p : JVal) :
    Option (JVal × List FolioWarning) :=
  match p with
  | JVal.obj po =>
      match (match po.get "resources" with
             | some (JVal.arr rs) =>
                 match resolveResList m (projectTitleStr po) rs with
                 | none => none
                 | some (rs2, ws) => some (po.set "resources" (JVal.arr rs2), ws)
             | _ => some (po, [])) with
      | none => none
      | some (po1, ws1) =>
          match po1.get "collection" with
          | some (JVal.obj co) =>
              match resolveCollections m (projectTitleStr po) co with
              | none => none
              | some (co2, ws2) =>
                  some (JVal.obj (po1.set "collection" (JVal.obj co2)), ws1 ++ ws2)
          | _ => some (JVal.obj po1, ws1)
  | _ => some (p, [])

/-- The loop over all projects. -/
def resolveProjects (m : List (String × String)) :
    List JVal → Option (List JVal × List FolioWarning)
  | [] => some ([], [])
  | p :: rest =>
      match resolveProject m p with
      | none => none
      | some (p2, ws) =>
          match resolveProjects m rest with
          | none => none
          | some (rest2, wsr) => some (p2 :: rest2, ws ++ wsr)

/-- `resolve_folio_resources(projects, folio_url_to_id)` (lines 710-848). -/
def resolve_folio_resources (projects : List JVal) (folioMap : List (String × String)) :
    Option (List JVal × List FolioWarning) :=
  resolveProjects (normalizeMap folioMap) projects

/-- Whether an items array still contains a dict item whose `type` is the
cross-reference (`folio`) kind. -/
def arrHasFolioTyped : JArr → Bool
  | .nil => false
  | .cons (JVal.obj io) rest => jvalIsFolioStr (io.get "type") || arrHasFolioTyped rest
  | .cons _ rest => arrHasFolioTyped rest

/-- A project whose only collection item is an unresolvable cross-reference:
its own `type` is `folio` and its target `missing` is not in the lookup map. -/
def cexFolioProject : JVal :=
  JVal.obj (JObj.cons "title" (JVal.str "P")
    (JObj.cons "collection" (JVal.obj (JObj.cons "gallery"
      (JVal.obj (JObj.cons "items" (JVal.arr (JArr.cons
        (JVal.obj (JObj.cons "type" (JVal.str "folio")
          (JObj.cons "url" (JVal.str "missing") JObj.nil)))
        JArr.nil)) JObj.nil))
      JObj.nil)) JObj.nil))

/-- C4 counterexample: resolving a collection item flagged as a
cross-reference whose target matches no known id records exactly one warning
naming the source project and the target — but the reference is NOT removed:
the project comes back unchanged, its items array still holding the
folio-typed reference. -/
theorem folio_item_miss_not_removed :
    resolve_folio_resources [cexFolioProject] []
        = some ([cexFolioProject], [⟨"P", "missing"⟩])
    ∧ arrHasFolioTyped (JArr.cons
        (JVal.obj (JObj.cons "type" (JVal.str "folio")
          (JObj.cons "url" (JVal.str "missing") JObj.nil)))
        JArr.nil) = true := by
  refine ⟨by decide, by decide⟩

/-- C4 amended: (a) a top-level resource flagged as a cross-reference is
rewritten to a plain internal link `/projects/{id}` on a lookup hit and is
removed with exactly one warning naming the source project and the target on
a miss; (b) a folio-flagged `resource` object inside a collection item is
likewise deleted with one warning on a miss; but (c) a collection item whose
OWN type is the cross-reference kind is left in place on a miss — one warning
is recorded when its url is nonempty, and the item (type and url unchanged)
stays in the output. -/
theorem folio_reference_resolution_characterization :
    (∀ (m : List (String × String)) (title : String) (ro : JObj) (url : String),
        is_folio_resource ro = true →
        ro.get "url" = some (JVal.str url) →
        (∀ pid, dictLookup m (normalize_url url) = some pid →
            resolveResList m title (JArr.cons (JVal.obj ro) JArr.nil)
              = some (JArr.cons (JVal.obj ((ro.set "type" (JVal.str "local-link")).set "url"
                  (JVal.str ("/projects/" ++ pid)))) JArr.nil, []))
        ∧ (dictLookup m (normalize_url url) = none →
            resolveResList m title (JArr.cons (JVal.obj ro) JArr.nil)
              = some (JArr.nil, [⟨title, url⟩])))
    ∧ (∀ (m : List (String × String)) (title : String) (io ro : JObj) (url : String),
        io.get "resource" = some (JVal.obj ro) →
        is_folio_resource ro = true →
        ro.get "url" = some (JVal.str url) →
        dictLookup m (normalize_url url) = none →
        itemPhase2 m title io = some (io.del "resource", [⟨title, url⟩]))
    ∧ (∀ (m : List (String × String)) (title : String) (io : JObj) (url : String),
        io.get "type" = some (JVal.str "folio") →
        io.get "url" = some (JVal.str url) →
        url ≠ "" →
        dictLookup m (normalize_url url) = none →
        itemPhase1 m title io = some (io, [⟨title, url⟩])) := by
  have resource_step : ∀ (m : List (String × String)) (title : String) (ro : JObj)
      (url : String), is_folio_resource ro = true →
      ro.get "url" = some (JVal.str url) →
      resolveResource m title (JVal.obj ro)
        = (match dictLookup m (normalize_url url) with
           | some pid =>
               some (some (JVal.obj ((ro.set "type" (JVal.str "local-link")).set
                 "url" (JVal.str ("/projects/" ++ pid)))), [])
           | none => some (none, [FolioWarning.mk title url])) := by
    intro m title ro url hfol hurl
    show (if is_folio_resource ro then
            match pyUrlArg (ro.get "url") with
            | none => none
            | some url2 =>
                match dictLookup m (normalize_url url2) with
                | some pid =>
                    some (some (JVal.obj ((ro.set "type" (JVal.str "local-link")).set
                      "url" (JVal.str ("/projects/" ++ pid)))), [])
                | none => some (none, [FolioWarning.mk title url2])
          else some (some (JVal.obj ro), []))
        = (match dictLookup m (normalize_url url) with
           | some pid =>
               some (some (JVal.obj ((ro.set "type" (JVal.str "local-link")).set
                 "url" (JVal.str ("/projects/" ++ pid)))), [])
           | none => some (none, [FolioWarning.mk title url]))
    rw [if_pos hfol, hurl]
    rfl
  refine ⟨?_, ?_, ?_⟩
  · intro m title ro url hfol hurl
    have hr := resource_step m title ro url hfol hurl
    constructor
    · intro pid hhit
      rw [hhit] at hr
      show (match resolveResource m title (JVal.obj ro) with
            | none => none
            | some (keep, ws) =>
                match resolveResList m title JArr.nil with
                | none => none
                | some (tailArr, tailWs) =>
                    some ((match keep with
                           | some r2 => JArr.cons r2 tailArr
                           | none => tailArr), ws ++ tailWs))
          = some (JArr.cons (JVal.obj ((ro.set "type" (JVal.str "local-link")).set "url"
              (JVal.str ("/projects/" ++ pid)))) JArr.nil, [])
      rw [hr]
      rfl
    · intro hmiss
      rw [hmiss] at hr
      show (match resolveResource m title (JVal.obj ro) with
            | none => none
            | some (keep, ws) =>
                match resolveResList m title JArr.nil with
                | none => none
                | some (tailArr, tailWs) =>
                    some ((match keep with
                           | some r2 => JArr.cons r2 tailArr
                           | none => tailArr), ws ++ tailWs))
          = some (JArr.nil, [FolioWarning.mk title url])
      rw [hr]
      rfl
  · intro m title io ro url hres hfol hurl hmiss
    unfold itemPhase2
    rw [hres]
    show (if is_folio_resource ro then
            match pyUrlArg (ro.get "url") with
            | none => none
            | some url2 =>
                match dictLookup m (normalize_url url2) with
                | some pid =>
                    some ((if (io.set "resource" (JVal.obj ((ro.set "type"
                        (JVal.str "local-link")).set "url"
                        (JVal.str ("/projects/" ++ pid))))).hasKey "url" then
                      (io.set "resource" (JVal.obj ((ro.set "type"
                        (JVal.str "local-link")).set "url"
                        (JVal.str ("/projects/" ++ pid))))).set "url"
                        (JVal.str ("/projects/" ++ pid))
                     else
                      io.set "resource" (JVal.obj ((ro.set "type"
                        (JVal.str "local-link")).set "url"
                        (JVal.str ("/projects/" ++ pid))))), [])
                | none => some (io.del "resource", [FolioWarning.mk title url2])
          else some (io, []))
        = some (io.del "resource", [FolioWarning.mk title url])
    rw [if_pos hfol, hurl]
    show (match dictLookup m (normalize_url url) with
          | some pid =>
              some ((if (io.set "resource" (JVal.obj ((ro.set "type"
                  (JVal.str "local-link")).set "url"
                  (JVal.str ("/projects/" ++ pid))))).hasKey "url" then
                (io.set "resource" (JVal.obj ((ro.set "type"
                  (JVal.str "local-link")).set "url"
                  (JVal.str ("/projects/" ++ pid))))).set "url"
                  (JVal.str ("/projects/" ++ pid))
               else
                io.set "resource" (JVal.obj ((ro.set "type"
                  (JVal.str "local-link")).set "url"
                  (JVal.str ("/projects/" ++ pid))))), [])
          | none => some (io.del "resource", [FolioWarning.mk title url]))
        = some (io.del "resource", [FolioWarning.mk title url])
    rw [hmiss]
  · intro m title io url htype hurl hne hmiss
    have hft : jvalIsFolioStr (io.get "type") = true := by
      rw [htype]
      decide
    unfold itemPhase1
    rw [if_pos hft, hurl]
    show (match (if normalize_url url = "" then none
                 else dictLookup m (normalize_url url)) with
          | some pid =>
              some ((io.set "type" (JVal.str "local-link")).set "url"
                (JVal.str ("/projects/" ++ pid)), [])
          | none =>
              if url = "" then some (io, []) else some (io, [FolioWarning.mk title url]))
        = some (io, [FolioWarning.mk title url])
    by_cases hnu : normalize_url url = ""
    · rw [if_pos hnu]
      show (if url = "" then some (io, []) else some (io, [FolioWarning.mk title url]))
          = some (io, [FolioWarning.mk title url])
      rw [if_neg hne]
    · rw [if_neg hnu, hmiss]
      show (if url = "" then some (io, []) else some (io, [FolioWarning.mk title url]))
          = some (io, [FolioWarning.mk title url])
      rw [if_neg hne]

/-- Witness for `folio_reference_resolution_characterization` at concrete
inputs: a top-level hit is rewritten, a top-level miss is dropped with one
warning, and an item-level miss keeps the item with one warning. -/
theorem folio_reference_resolution_witness :
    resolveResList [("t1", "p1")] "T"
        (JArr.cons (JVal.obj (JObj.cons "type" (JVal.str "folio")
          (JObj.cons "url" (JVal.str "t1") JObj.nil))) JArr.nil)
      = some (JArr.cons (JVal.obj (((JObj.cons "type" (JVal.str "folio")
          (JObj.cons "url" (JVal.str "t1") JObj.nil)).set "type"
          (JVal.str "local-link")).set "url"
          (JVal.str ("/projects/" ++ "p1")))) JArr.nil, [])
    ∧ resolveResList [] "T"
        (JArr.cons (JVal.obj (JObj.cons "type" (JVal.str "folio")
          (JObj.cons "url" (JVal.str "missing") JObj.nil))) JArr.nil)
      = some (JArr.nil, [FolioWarning.mk "T" "missing"])
    ∧ itemPhase1 [] "T"
        (JObj.cons "type" (JVal.str "folio")
          (JObj.cons "url" (JVal.str "missing") JObj.nil))
      = some (JObj.cons "type" (JVal.str "folio")
          (JObj.cons "url" (JVal.str "missing") JObj.nil),
          [FolioWarning.mk "T" "missing"]) :=
  ⟨(folio_reference_resolution_characterization.1 [("t1", "p1")] "T"
      (JObj.cons "type" (JVal.str "folio") (JObj.cons "url" (JVal.str "t1") JObj.nil))
      "t1" (by decide) (by decide)).1 "p1" (by decide),
   (folio_reference_resolution_characterization.1 [] "T"
      (JObj.cons "type" (JVal.str "folio") (JObj.cons "url" (JVal.str "missing") JObj.nil))
      "missing" (by decide) (by decide)).2 (by decide),
   folio_reference_resolution_characterization.2.2 [] "T"
      (JObj.cons "type" (JVal.str "folio") (JObj.cons "url" (JVal.str "missing") JObj.nil))
      "missing" (by decide) (by decide) (by decide) (by decide)⟩

/-! ### Document loading (`temp_prebuild.load_json` lines 179-231 and the
parse step of `folio-prebuild.main` lines 1256-1266)

`json.loads` is modelled by a fuel-driven recursive-descent parser over the
JSON fragment the pipeline's documents use: objects, arrays, strings with
single-character escapes, integers, booleans and null.  Floats and `\u`
escapes are outside the model.  The fuel starts above the input length and
every recursive call first consumes input, so it never runs out on the
inputs considered here. -/

/-- Python `str.endswith(p)`. -/
def strEndsWith (s p : String) : Bool :=
  p.toList.isSuffixOf s.toList

/-- The whitespace `json.loads` skips between tokens. -/
def jsonWs (c : Char) : Bool :=
  c = ' ' || c = '\t' || c = '\n' || c = '\x0d'

def skipWs (l : List Char) : List Char :=
  l.dropWhile jsonWs

/-- Single-character JSON string escapes (`\uXXXX` is outside the model). -/
def escChar (e : Char) : Option Char :=
  if e = 'n' then some '\n'
  else if e = 't' then some '\t'
  else if e = 'r' then some '\x0d'
  else if e = '"' then some '"'
  else if e = '\\' then some '\\'
  else if e = '/' then some '/'
  else if e = 'b' then some '\x08'
  else if e = 'f' then some '\x0c'
  else none

/-- Parse the body of a JSON string after the opening quote. -/
def parseStrAux : List Char → Option (List Char × List Char)
  | [] => none
  | c :: rest =>
      if c = '"' then some ([], rest)
      else if c = '\\' then
        match rest with
        | [] => none
        | e :: rest2 =>
            match escChar e with
            | none => none
            | some d =>
                match parseStrAux rest2 with
                | none => none
                | some (cs, r) => some (d :: cs, r)
      else if c.toNat < 32 then none
      else
        match parseStrAux rest with
        | none => none
        | some (cs, r) => some (c :: cs, r)

def digitsToNat (ds : List Char) : Nat :=
  ds.foldl (fun acc c => acc * 10 + (c.toNat - '0'.toNat)) 0

/-- Parse a JSON natural-number literal: nonempty digits, no leading zero,
not followed by a fraction or exponent (floats are outside the model). -/
def parseNatDigits (l : List Char) : Option (Nat × List Char) :=
  let ds := l.takeWhile Char.isDigit
  if ds.isEmpty then none
  else if decide (1 < ds.length) && ds.headD '0' = '0' then none
  else
    match l.drop ds.length with
    | c :: r => if c = '.' || c = 'e' || c = 'E' then none else some (digitsToNat ds, c :: r)
    | [] => some (digitsToNat ds, [])

/-- Parse an integer literal with optional minus sign. -/
def parseIntChars : List Char → Option (Int × List Char)
  | '-' :: rest =>
      match parseNatDigits rest with
      | some (n, r) => some (-(n : Int), r)
      | none => none
  | l =>
      match parseNatDigits l with
      | some (n, r) => some ((n : Int), r)
      | none => none

mutual

/-- One JSON value, leading whitespace allowed. -/
def parseVal : Nat → List Char → Option (JVal × List Char)
  | 0, _ => none
  | Nat.succ fuel, l =>
      match skipWs l with
      | [] => none
      | c :: rest =>
          if c = 'n' then
            if ['u', 'l', 'l'].isPrefixOf rest then some (JVal.null, rest.drop 3) else none
          else if c = 't' then
            if ['r', 'u', 'e'].isPrefixOf rest then some (JVal.bool true, rest.drop 3) else none
          else if c = 'f' then
            if ['a', 'l', 's', 'e'].isPrefixOf rest then some (JVal.bool false, rest.drop 4)
            else none
          else if c = '"' then
            match parseStrAux rest with
            | some (cs, r) => some (JVal.str ⟨cs⟩, r)
            | none => none
          else if c = '[' then
            match skipWs rest with
            | ']' :: r2 => some (JVal.arr JArr.nil, r2)
            | _ =>
                match parseVal fuel rest with
                | none => none
                | some (v, r2) =>
                    match parseArrTail fuel r2 with
                    | none => none
                    | some (tl, r3) => some (JVal.arr (JArr.cons v tl), r3)
          else if c = '\x7b' then
            match skipWs rest with
            | '\x7d' :: r2 => some (JVal.obj JObj.nil, r2)
            | _ =>
                match parseMember fuel rest with
                | none => none
                | some (k, v, r2) =>
                    match parseObjTail fuel (JObj.nil.set k v) r2 with
                    | none => none
                    | some (o, r3) => some (JVal.obj o, r3)
          else if c = '-' || c.isDigit then
            match parseIntChars (c :: rest) with
            | some (n, r) => some (JVal.num n, r)
            | none => none
          else none

/-- The rest of an array after one element: `]` ends it; `,` demands another
element — a trailing comma is a parse failure, as in `json.loads`. -/
def parseArrTail : Nat → List Char → Option (JArr × List Char)
  | 0, _ => none
  | Nat.succ fuel, l =>
      match skipWs l with
      | ']' :: r => some (JArr.nil, r)
      | ',' :: r =>
          match parseVal fuel r with
          | none => none
          | some (v, r2) =>
              match parseArrTail fuel r2 with
              | none => none
              | some (tl, r3) => some (JArr.cons v tl, r3)
      | _ => none

/-- One `"key": value` member; the key must be a quoted string, as in
`json.loads` — an unquoted key is a parse failure. -/
def parseMember : Nat → List Char → Option (String × JVal × List Char)
  | 0, _ => none
  | Nat.succ fuel, l =>
      match skipWs l with
      | '"' :: rest =>
          match parseStrAux rest with
          | none => none
          | some (ks, r) =>
              match skipWs r with
              | ':' :: r2 =>
                  match parseVal fuel r2 with
                  | none => none
                  | some (v, r3) => some (⟨ks⟩, v, r3)
              | _ => none
      | _ => none

/-- The rest of an object after one member; duplicate keys overwrite, as in
a Python dict. -/
def parseObjTail : Nat → JObj → List Char → Option (JObj × List Char)
  | 0, _, _ => none
  | Nat.succ fuel, acc, l =>
      match skipWs l with
      | '\x7d' :: r => some (acc, r)
      | ',' :: r =>
          match parseMember fuel r with
          | none => none
          | some (k, v, r2) => parseObjTail fuel (acc.set k v) r2
      | _ => none

end

/-- `json.loads(text)` over the modelled fragment: one value, possibly
surrounded by whitespace, consuming the whole input. -/
def jsonParse (s : String) : Option JVal :=
  match parseVal (s.toList.length + 2) s.toList with
  | some (v, rest) => if (skipWs rest).isEmpty then some v else none
  | none => none

example : jsonParse "\x7b\"a\": 1\x7d"
    = some (JVal.obj (JObj.cons "a" (JVal.num 1) JObj.nil)) := by decide
example : jsonParse "[1, true, \"x\"]"
    = some (JVal.arr (JArr.cons (JVal.num 1) (JArr.cons (JVal.bool true)
        (JArr.cons (JVal.str "x") JArr.nil)))) := by decide
example : jsonParse "[1,]" = none := by decide
example : jsonParse "\x7ba: 1\x7d" = none := by decide

/-- The character class `[\x7b,\n\r\t\s]` of the key-quoting pattern
(`temp_prebuild.py` line 212): an opening brace, a comma, or whitespace. -/
def isG1Char (c : Char) : Bool :=
  c = '\x7b' || c = ',' || isPySpace c

/-- The key class `[A-Za-z0-9_\-]` of the same pattern. -/
def isKeyChar (c : Char) : Bool :=
  c.isAlpha || c.isDigit || c = '_' || c = '-'

/-- Try to match `([A-Za-z0-9_\-]+)\s*:` at the head of the input, returning
the key and the input after the colon. -/
def tryKeyMatch (l : List Char) : Option (List Char × List Char) :=
  let key := l.takeWhile isKeyChar
  if key.isEmpty then none
  else
    match (l.drop key.length).dropWhile isPySpace with
    | ':' :: r2 => some (key, r2)
    | _ => none

/-- `re.sub(r'(^|[\x7b,\n\r\t\s])([A-Za-z0-9_\-]+)\s*:', r'\1"\2":', text)`
(line 212), as the regex engine scans it: leftmost non-overlapping matches,
the `^` alternative available only at position 0, advancing one character on
failure. -/
def quoteKeysAux : Nat → Bool → List Char → List Char
  | 0, _, l => l
  | Nat.succ fuel, atStart, l =>
      match l with
      | [] => []
      | c :: rest =>
          if atStart then
            match tryKeyMatch l with
            | some (key, r2) => '"' :: (key ++ '"' :: ':' :: quoteKeysAux fuel false r2)
            | none =>
                if isG1Char c then
                  match tryKeyMatch rest with
                  | some (key, r2) =>
                      c :: '"' :: (key ++ '"' :: ':' :: quoteKeysAux fuel false r2)
                  | none => c :: quoteKeysAux fuel false rest
                else c :: quoteKeysAux fuel false rest
          else
            if isG1Char c then
              match tryKeyMatch rest with
              | some (key, r2) =>
                  c :: '"' :: (key ++ '"' :: ':' :: quoteKeysAux fuel false r2)
              | none => c :: quoteKeysAux fuel false rest
            else c :: quoteKeysAux fuel false rest

/-- `re.sub(r',\s*([\x7d\]])', r'\1', text)` (line 218): drop a comma (and
the whitespace after it) that directly precedes a closing brace or bracket. -/
def stripTCAux : Nat → List Char → List Char
  | 0, l => l
  | Nat.succ fuel, l =>
      match l with
      | [] => []
      | c :: rest =>
          if c = ',' then
            match rest.drop ((rest.takeWhile isPySpace).length) with
            | b :: r2 =>
                if b = '\x7d' || b = ']' then b :: stripTCAux fuel r2
                else c :: stripTCAux fuel rest
            | [] => c :: stripTCAux fuel rest
          else c :: stripTCAux fuel rest

/-- The bounded lenient repair of `load_json` (lines 203-221): strip a BOM,
quote unquoted keys, strip trailing commas.  One pass; applied at most once. -/
def lenientFix (text : String) : String :=
  let t0 := text.toList.dropWhile (· = '﻿')
  let t1 := quoteKeysAux t0.length true t0
  ⟨stripTCAux t1.length t1⟩

example : lenientFix "\x7ba: 1\x7d" = "\x7b\"a\": 1\x7d" := by decide
example : lenientFix "[1, 2,]" = "[1, 2]" := by decide
example : lenientFix "\x7b\"a\": 1\x7d" = "\x7b\"a\": 1\x7d" := by decide

/-- `temp_prebuild.load_json(path)` (lines 179-231), with the file's
readability and content abstracted into `text` (`none` models a missing or
unreadable file).  A parse failure on a `*_info.json` file gets exactly one
lenient repair and one retry; any remaining failure is `None` — no exception
escapes. -/
def load_json (fileName : String) (text : Option String) : Option JVal :=
  match text with
  | none => none
  | some t =>
      match jsonParse t with
      | some v => some v
      | none =>
          if strEndsWith fileName "_info.json" then jsonParse (lenientFix t)
          else none

/-- The parse step applied to a `.folio` candidate in `folio-prebuild.main`
(lines 1256-1266): `json.loads` only — a failure records the candidate as
skipped, with NO lenient repair attempted. -/
def folioParseDoc (text : String) : Option JVal :=
  jsonParse text

/-- C6 counterexample: the text `\x7ba: 1\x7d` fails to parse, and the single
lenient repair would fix it — `load_json` on an `_info.json` file recovers
it — but the `.folio` loader returns a parse failure without attempting the
repair: for `.folio` description documents no repair happens at all. -/
theorem folio_loader_attempts_no_repair :
    jsonParse "\x7ba: 1\x7d" = none
    ∧ jsonParse (lenientFix "\x7ba: 1\x7d")
        = some (JVal.obj (JObj.cons "a" (JVal.num 1) JObj.nil))
    ∧ load_json "project_info.json" (some "\x7ba: 1\x7d")
        = some (JVal.obj (JObj.cons "a" (JVal.num 1) JObj.nil))
    ∧ folioParseDoc "\x7ba: 1\x7d" = none
    ∧ folioParseDoc "\x7ba: 1\x7d" ≠ jsonParse (lenientFix "\x7ba: 1\x7d") := by
  refine ⟨by decide, by decide, by decide, by decide, by decide⟩

/-- C6 amended: only documents matching the `*_info.json` naming convention
receive the bounded lenient repair, applied exactly once with one re-parse;
for them a failing text yields exactly the result of re-parsing the repaired
text.  A failing text behind any other name — in particular a `.folio`
document — is a parse failure with no repair attempt.  In both loaders the
failure is a returned `None`, never a propagated exception. -/
theorem loader_repair_characterization :
    ∀ (name text : String), jsonParse text = none →
      (strEndsWith name "_info.json" = true →
          load_json name (some text) = jsonParse (lenientFix text))
      ∧ (strEndsWith name "_info.json" = false →
          load_json name (some text) = none)
      ∧ folioParseDoc text = none := by
  intro name text hfail
  refine ⟨?_, ?_, hfail⟩
  · intro hinfo
    unfold load_json
    show (match jsonParse text with
          | some v => some v
          | none =>
              if strEndsWith name "_info.json" then jsonParse (lenientFix text) else none)
        = jsonParse (lenientFix text)
    rw [hfail]
    show (if strEndsWith name "_info.json" then jsonParse (lenientFix text) else none)
        = jsonParse (lenientFix text)
    rw [if_pos hinfo]
  · intro hinfo
    unfold load_json
    show (match jsonParse text with
          | some v => some v
          | none =>
              if strEndsWith name "_info.json" then jsonParse (lenientFix text) else none)
        = none
    rw [hfail]
    show (if strEndsWith name "_info.json" then jsonParse (lenientFix text) else none)
        = none
    rw [if_neg (by rw [hinfo]; exact Bool.noConfusion)]

/-- Witness for `loader_repair_characterization`: the malformed text
`\x7ba: 1\x7d` behind an `_info.json` name is retried on the repaired text;
behind a `.folio` name it stays a parse failure. -/
theorem loader_repair_witness :
    load_json "project_info.json" (some "\x7ba: 1\x7d")
        = jsonParse (lenientFix "\x7ba: 1\x7d")
    ∧ load_json "demo.folio" (some "\x7ba: 1\x7d") = none :=
  ⟨(loader_repair_characterization "project_info.json" "\x7ba: 1\x7d" (by decide)).1
      (by decide),
   (loader_repair_characterization "demo.folio" "\x7ba: 1\x7d" (by decide)).2.1
      (by decide)⟩

/-! ### The publish transaction (`folio-prebuild.main` lines 1116-1640)

The filesystem effects of a successful run, as an explicit step sequence
over an abstract state: the lock marker, the live `public/projects` tree,
the timestamped backup, and the temp build directory, each holding a list of
file names.  Removal (`shutil.rmtree`) and rename are modelled as single
transitions.  The step order is the code's: acquire the lock (line 1116);
REMOVE the existing live directory — or rename it to a backup when removal
fails — immediately after, BEFORE anything is built (lines 1122-1144);
create the temp directory (line 1154); copy assets and write the manifest
into the temp tree only (lines 1252-1499); rename temp into the live
position (lines 1515-1545); delete the backup; release the lock.  The trace
of states exposes every intermediate point, i.e. every possible kill
point. -/

structure FsState where
  lockHeld : Bool
  live : Option (List String)
  backup : Option (List String)
  temp : Option (List String)
deriving DecidableEq

inductive PubStep where
  | acquireLock
  | prepareLive (removalOk : Bool)
  | createTemp
  | copyAsset (f : String)
  | writeManifest
  | renameTempToLive
  | deleteBackup
  | releaseLock
deriving DecidableEq

/-- One filesystem transition of the publish path. -/
def pubStep (s : FsState) : PubStep → FsState
  | .acquireLock => { s with lockHeld := true }
  | .prepareLive ok =>
      match s.live with
      | none => s
      | some c =>
          if ok then { s with live := none }
          else { s with live := none, backup := some c }
  | .createTemp => { s with temp := some [] }
  | .copyAsset f => { s with temp := s.temp.map (· ++ [f]) }
  | .writeManifest => { s with temp := s.temp.map (· ++ ["projects.json"]) }
  | .renameTempToLive => { s with live := s.temp, temp := none }
  | .deleteBackup => { s with backup := none }
  | .releaseLock => { s with lockHeld := false }

/-- The step sequence of a successful run, in source order. -/
def publishScript (removalOk : Bool) (assets : List String) : List PubStep :=
  [.acquireLock, .prepareLive removalOk, .createTemp]
    ++ assets.map .copyAsset
    ++ [.writeManifest, .renameTempToLive, .deleteBackup, .releaseLock]

/-- All states a run passes through: the initial state and the state after
each step. -/
def runStates (s : FsState) : List PubStep → List FsState
  | [] => [s]
  | st :: rest => s :: runStates (pubStep s st) rest

/-- The state before the run: no lock, a live tree, nothing else. -/
def initState (live : Option (List String)) : FsState :=
  ⟨false, live, none, none⟩

/-- The complete new tree: the copied assets plus the manifest. -/
def newContent (assets : List String) : List String :=
  assets ++ ["projects.json"]

/-- The states between the start of Building (the temp directory exists) and
the completion of the swap: trace indices 3 through the post-rename state. -/
def buildWindow (removalOk : Bool) (assets old : List String) : List FsState :=
  ((runStates (initState (some old)) (publishScript removalOk assets)).drop 3).take
    (assets.length + 3)

/-- C1 counterexample: with one asset and a non-empty prior tree, the claim
"between Building start and swap completion the live directory holds the
complete prior state or the complete new state" is false — the very first
Building state already has NO live directory, because the code removes the
live tree right after lock acquisition, before the build starts. -/
theorem publish_window_live_absent :
    ¬ (∀ s ∈ buildWindow true ["a.png"] ["old.png", "projects.json"],
        s.live = some ["old.png", "projects.json"]
          ∨ s.live = some (newContent ["a.png"]))
    ∧ (buildWindow true ["a.png"] ["old.png", "projects.json"]).head?
        = some ⟨true, none, none, some []⟩ := by
  refine ⟨by decide, by decide⟩

theorem tailPhase (bk : Option (List String)) :
    ∀ (assets acc : List String),
      ∀ s ∈ runStates (FsState.mk true none bk (some acc))
          (assets.map PubStep.copyAsset
            ++ [PubStep.writeManifest, PubStep.renameTempToLive,
                PubStep.deleteBackup, PubStep.releaseLock]),
        s.live = none ∨ s.live = some (acc ++ assets ++ ["projects.json"])
  | [], acc => by
      intro s hs
      simp only [List.map_nil, List.nil_append, runStates, pubStep, List.mem_cons,
        List.mem_singleton] at hs
      rcases hs with rfl | rfl | rfl | rfl | rfl | h
      · exact Or.inl rfl
      · exact Or.inl rfl
      · refine Or.inr ?_
        simp
      · refine Or.inr ?_
        simp
      · refine Or.inr ?_
        simp
      · exact absurd h (List.not_mem_nil s)
  | a :: as, acc => by
      intro s hs
      simp only [List.map_cons, List.cons_append, runStates, List.mem_cons] at hs
      rcases hs with rfl | h
      · exact Or.inl rfl
      · have h2 := tailPhase bk as (acc ++ [a]) s (by
          simpa [pubStep] using h)
        rcases h2 with h2 | h2
        · exact Or.inl h2
        · refine Or.inr ?_
          rw [h2]
          simp

/-- C1 amended: in every run of the publish transaction, with removal
succeeding or falling back to the backup rename, every state of the trace
has the live directory holding the complete prior tree, or nothing at all,
or the complete new tree — never a partial tree; and the build steps (asset
copies and the manifest write) never touch the live directory, only the temp
tree.  What fails in the original claim is only the "prior or new" part:
from the prepare step (right after lock acquisition, before the temp
directory exists) until the swap, the live path is ABSENT. -/
theorem publish_live_never_partial :
    (∀ (removalOk : Bool) (assets old : List String),
        ∀ s ∈ runStates (initState (some old)) (publishScript removalOk assets),
          s.live = some old ∨ s.live = none ∨ s.live = some (newContent assets))
    ∧ (∀ (s : FsState) (f : String),
        (pubStep s (PubStep.copyAsset f)).live = s.live
        ∧ (pubStep s PubStep.writeManifest).live = s.live) := by
  constructor
  · intro ok assets old s hs
    cases ok with
    | true =>
        rw [show publishScript true assets
            = PubStep.acquireLock :: PubStep.prepareLive true :: PubStep.createTemp ::
              (assets.map PubStep.copyAsset
                ++ [PubStep.writeManifest, PubStep.renameTempToLive,
                    PubStep.deleteBackup, PubStep.releaseLock]) from by
          simp [publishScript]] at hs
        rw [runStates, runStates, runStates] at hs
        simp only [List.mem_cons] at hs
        rcases hs with rfl | rfl | rfl | h
        · exact Or.inl rfl
        · exact Or.inl rfl
        · exact Or.inr (Or.inl rfl)
        · have h3 : pubStep (pubStep (pubStep (initState (some old)) PubStep.acquireLock)
              (PubStep.prepareLive true)) PubStep.createTemp
              = FsState.mk true none none (some []) := rfl
          rw [h3] at h
          rcases tailPhase none assets [] s h with h2 | h2
          · exact Or.inr (Or.inl h2)
          · refine Or.inr (Or.inr ?_)
            rw [h2]
            simp [newContent]
    | false =>
        rw [show publishScript false assets
            = PubStep.acquireLock :: PubStep.prepareLive false :: PubStep.createTemp ::
              (assets.map PubStep.copyAsset
                ++ [PubStep.writeManifest, PubStep.renameTempToLive,
                    PubStep.deleteBackup, PubStep.releaseLock]) from by
          simp [publishScript]] at hs
        rw [runStates, runStates, runStates] at hs
        simp only [List.mem_cons] at hs
        rcases hs with rfl | rfl | rfl | h
        · exact Or.inl rfl
        · exact Or.inl rfl
        · exact Or.inr (Or.inl rfl)
        · have h3 : pubStep (pubStep (pubStep (initState (some old)) PubStep.acquireLock)
              (PubStep.prepareLive false)) PubStep.createTemp
              = FsState.mk true none (some old) (some []) := rfl
          rw [h3] at h
          rcases tailPhase (some old) assets [] s h with h2 | h2
          · exact Or.inr (Or.inl h2)
          · refine Or.inr (Or.inr ?_)
            rw [h2]
            simp [newContent]
  · intro s f
    exact ⟨rfl, rfl⟩

/-- Witness for `publish_live_never_partial` at a concrete trace state. -/
theorem publish_live_never_partial_witness :
    (initState (some ["x"])).live = some ["x"]
      ∨ (initState (some ["x"])).live = none
      ∨ (initState (some ["x"])).live = some (newContent ["a.png"]) :=
  publish_live_never_partial.1 true ["a.png"] ["x"] (initState (some ["x"])) (by decide)

/-! ### Entry of `main`: auto-repair, then the lock (lines 917-927, 940-994,
1099-1155)

The public directory before a run: whether the lock marker file exists, what
content (if any) sits at the canonical `public/projects` path, and the other
directories in `public` with their modification times.  The code path
modelled: the automatic `repair_projects_dir()` call that runs when the
canonical directory is missing (lines 1108-1113) — BEFORE the lock is even
checked — then `acquire_lock()` (lines 917-927, `O_CREAT|O_EXCL`, `EEXIST`
fatal via `SystemExit`, no retry), then the prepare/temp steps for a run
that proceeds. -/

structure SiblingDir where
  name : String
  mtime : Nat
  content : List String
deriving DecidableEq

structure PublicDir where
  lockExists : Bool
  live : Option (List String)
  siblings : List SiblingDir
deriving DecidableEq

/-- The candidate test of `repair_projects_dir` (line 953) for a directory
that is not the canonical one: `projects ` followed by digits. -/
def isProjectsNName (name : String) : Bool :=
  strStartsWith name "projects " && pyIsDigit (pyStrip (strDrop name 9))

/-- Python `max(candidates, key=mtime)`: first maximal element. -/
def maxByMtime : List SiblingDir → Option SiblingDir
  | [] => none
  | d :: rest =>
      some (rest.foldl (fun best x => if x.mtime > best.mtime then x else best) d)

/-- `repair_projects_dir()` (lines 940-994): when the canonical directory is
missing and numbered `projects N` siblings exist, rename the most recently
modified one to the canonical name and remove the other numbered siblings;
otherwise do nothing. -/
def repair_projects_dir (s : PublicDir) : PublicDir :=
  if s.live.isSome then s
  else
    match maxByMtime (s.siblings.filter (fun d => isProjectsNName d.name)) with
    | none => s
    | some chosen =>
        { s with live := some chosen.content,
                 siblings := s.siblings.filter (fun d => !isProjectsNName d.name) }

inductive EntryResult where
  | lockHeldAbort
  | started
deriving DecidableEq

structure EntryOutcome where
  result : EntryResult
  tempCreated : Bool
  dir : PublicDir
deriving DecidableEq

/-- The entry of `main` up to the creation of the temp directory
(lines 1108-1155): auto-repair when the canonical directory is missing, then
the exclusive lock — `EEXIST` aborts with a fatal `SystemExit`, before any
temp directory exists and leaving the lock file in place — else the lock is
created, the live directory is removed (or already absent) and the temp
directory is created. -/
def folioEntry (s : PublicDir) : EntryOutcome :=
  let s1 := if s.live.isSome then s else repair_projects_dir s
  if s1.lockExists then ⟨.lockHeldAbort, false, s1⟩
  else ⟨.started, true, { s1 with lockExists := true, live := none }⟩

/-- C2 counterexample: an invocation that starts while the lock is held, the
canonical directory is missing, and a stray `projects 2` sibling exists DOES
mutate the live projects path before aborting: the pre-lock auto-repair
renames the sibling into the live position, and only then does the lock
check abort the run. -/
theorem lock_held_entry_mutates_live :
    (folioEntry ⟨true, none, [⟨"projects 2", 5, ["c.png"]⟩]⟩).result
        = EntryResult.lockHeldAbort
    ∧ (folioEntry ⟨true, none, [⟨"projects 2", 5, ["c.png"]⟩]⟩).tempCreated = false
    ∧ (folioEntry ⟨true, none, [⟨"projects 2", 5, ["c.png"]⟩]⟩).dir.live
        = some ["c.png"]
    ∧ (folioEntry ⟨true, none, [⟨"projects 2", 5, ["c.png"]⟩]⟩).dir.live
        ≠ (PublicDir.mk true none [⟨"projects 2", 5, ["c.png"]⟩]).live := by
  refine ⟨by decide, by decide, by decide, by decide⟩

theorem repair_lockExists (s : PublicDir) :
    (repair_projects_dir s).lockExists = s.lockExists := by
  unfold repair_projects_dir
  split
  · rfl
  · split
    · rfl
    · rfl

theorem foldl_max_mem :
    ∀ (rest : List SiblingDir) (d : SiblingDir),
      rest.foldl (fun best x => if x.mtime > best.mtime then x else best) d ∈ d :: rest
  | [], d => List.mem_cons_self d []
  | x :: rest, d => by
      rw [List.foldl]
      by_cases h : x.mtime > d.mtime
      · rw [if_pos h]
        rcases List.mem_cons.mp (foldl_max_mem rest x) with h2 | h2
        · rw [h2]
          exact List.mem_cons_of_mem _ (List.mem_cons_self x rest)
        · exact List.mem_cons_of_mem _ (List.mem_cons_of_mem _ h2)
      · rw [if_neg h]
        rcases List.mem_cons.mp (foldl_max_mem rest d) with h2 | h2
        · rw [h2]
          exact List.mem_cons_self d (x :: rest)
        · exact List.mem_cons_of_mem _ (List.mem_cons_of_mem _ h2)

theorem maxByMtime_mem (l : List SiblingDir) (d : SiblingDir)
    (h : maxByMtime l = some d) : d ∈ l := by
  cases l with
  | nil => exact Option.noConfusion h
  | cons x rest =>
      injection h with h
      rw [← h]
      exact foldl_max_mem rest x

/-- C2 amended: an invocation starting while the lock marker exists aborts
with the fatal lock-held error — a single check, no retry — creates no temp
directory, and leaves the lock file in place (the first build is
unaffected).  When the canonical live directory exists, nothing at all is
mutated.  But when it is missing, the pre-lock auto-repair may first rename
the newest stray `projects N` sibling into the live position (deleting the
other numbered siblings): the only possible mutation, and it happens before
the lock check. -/
theorem lock_held_entry_characterization :
    ∀ s : PublicDir, s.lockExists = true →
      (folioEntry s).result = EntryResult.lockHeldAbort
      ∧ (folioEntry s).tempCreated = false
      ∧ (folioEntry s).dir.lockExists = true
      ∧ (s.live.isSome = true → (folioEntry s).dir = s)
      ∧ (s.live = none →
          (folioEntry s).dir.live = none
          ∨ ∃ d ∈ s.siblings, isProjectsNName d.name = true
              ∧ (folioEntry s).dir.live = some d.content) := by
  intro s hlock
  have hs1lock : (if s.live.isSome then s else repair_projects_dir s).lockExists = true := by
    split
    · exact hlock
    · rw [repair_lockExists]
      exact hlock
  have hout : folioEntry s
      = ⟨EntryResult.lockHeldAbort, false, if s.live.isSome then s else repair_projects_dir s⟩ := by
    unfold folioEntry
    rw [if_pos hs1lock]
  refine ⟨by rw [hout], by rw [hout], by rw [hout]; exact hs1lock, ?_, ?_⟩
  · intro hlive
    rw [hout]
    show (if s.live.isSome then s else repair_projects_dir s) = s
    rw [if_pos hlive]
  · intro hlive
    rw [hout]
    show (if s.live.isSome then s else repair_projects_dir s).live = none
        ∨ ∃ d ∈ s.siblings, isProjectsNName d.name = true
            ∧ (if s.live.isSome then s else repair_projects_dir s).live = some d.content
    have hnone : s.live.isSome = false := by rw [hlive]; rfl
    rw [if_neg (by rw [hnone]; exact Bool.noConfusion)]
    unfold repair_projects_dir
    rw [if_neg (by rw [hnone]; exact Bool.noConfusion)]
    cases hm : maxByMtime (s.siblings.filter (fun d => isProjectsNName d.name)) with
    | none => exact Or.inl hlive
    | some chosen =>
        refine Or.inr ⟨chosen, ?_, ?_, rfl⟩
        · exact (List.mem_filter.mp (maxByMtime_mem _ _ hm)).1
        · exact (List.mem_filter.mp (maxByMtime_mem _ _ hm)).2

/-- Witness for `lock_held_entry_characterization`: with the lock held and a
live directory present, the run aborts, creates no temp directory and
changes nothing. -/
theorem lock_held_entry_witness :
    (folioEntry ⟨true, some ["old.png"], []⟩).result = EntryResult.lockHeldAbort
    ∧ (folioEntry ⟨true, some ["old.png"], []⟩).tempCreated = false
    ∧ (folioEntry ⟨true, some ["old.png"], []⟩).dir = ⟨true, some ["old.png"], []⟩ :=
  ⟨(lock_held_entry_characterization ⟨true, some ["old.png"], []⟩ (by decide)).1,
   (lock_held_entry_characterization ⟨true, some ["old.png"], []⟩ (by decide)).2.1,
   (lock_held_entry_characterization ⟨true, some ["old.png"], []⟩ (by decide)).2.2.2.1
     (by decide)⟩
